import Mathlib

/-!
# mymobileapi-go: the authenticated request pipeline

A shallow embedding of `client.go` and `mymobileapi.go`.

* Go strings and byte slices are `String` (valid UTF-8 text), a Go `int` is an
  `Int` (the 64-bit range is named where it matters), a Go `error` is
  `Option GoError` with `none` for `nil`.
* The remote server, `net/url.Parse` and `json.Marshal` of request bodies are
  inputs of the model (`World`, and the `marshal` argument of `Client.do`).
* The standard-library routines whose results the package depends on are
  modelled from their Go sources: `fmt` with the two constant formats and
  with an operand-free format, `encoding/json` decoding into the response
  structs (a slice keeps the elements of its backing array, as in the library),
  `time.ParseDuration` (with its `uint64` sum and its float64 fraction),
  `encoding/base64`, and the method check of `http.NewRequest`.
* The debug dumps written to standard output are not part of the model.
-/

namespace MyMobileApi

/-! ## Decimal numbers (`strconv`, `fmt` with the verb d) -/

/-- The ASCII digit for `d < 10`. -/
def digitChar (d : Nat) : Char := Char.ofNat (48 + d)

/-- Decimal digits of `n`, most significant first; `fuel` bounds the number of digits. -/
def decDigits : Nat → Nat → List Char
  | 0, _ => []
  | fuel + 1, n =>
    if n < 10 then [digitChar n] else decDigits fuel (n / 10) ++ [digitChar (n % 10)]

/-- The decimal numeral of a natural number. -/
def formatNat (n : Nat) : List Char := decDigits (n + 1) n

/-- What `fmt.Sprint(n)` and the verb d print for an integer: an optional minus, then the digits. -/
def formatInt : Int → String
  | .ofNat n => String.mk (formatNat n)
  | .negSucc n => String.mk ('-' :: formatNat (n + 1))

/-- ASCII decimal digit test. -/
def isDigit (c : Char) : Bool := decide ('0' ≤ c) && decide (c ≤ '9')

/-- The value of an ASCII decimal digit. -/
def digitVal (c : Char) : Nat := c.toNat - 48

/-! ## `fmt.Errorf` with a format and no operands

`Client.do` passes the joined field errors to `fmt.Errorf` as the FORMAT, with no
operand. `Sprintf0` follows `(*pp).doPrintf` for an empty operand list: text is
copied up to a percent sign; after it flags, an argument index, a width, a
precision and a verb are read, and since no operand exists the verb prints
`%!v(MISSING)` (or `%!v(BADINDEX)`, `%!(BADWIDTH)`, `%!(BADPREC)`, `%!(NOVERB)`);
only the verb `%` prints a percent sign.
-/

/-- The flag characters skipped after a percent sign. -/
def skipFlags : List Char → List Char
  | [] => []
  | c :: cs =>
    if c = '#' ∨ c = '0' ∨ c = '+' ∨ c = '-' ∨ c = ' ' then skipFlags cs else c :: cs

/-- The loop of `parsenum`: reads digits, gives up (consuming everything up to its end
bound) once the number read so far exceeds `1e6`. Returns `isnum` and the unread text. -/
def parsenumLoop : Nat → Bool → List Char → Bool × List Char
  | _, isnum, [] => (isnum, [])
  | num, isnum, c :: cs =>
    if isDigit c then
      if num > 1000000 then (false, [])
      else parsenumLoop (num * 10 + digitVal c) true cs
    else (isnum, c :: cs)

/-- Splits at the first closing square bracket: the text before it and the text after it. -/
def splitAtBracket : List Char → Option (List Char × List Char)
  | [] => none
  | c :: cs =>
    if c = ']' then some ([], cs)
    else (splitAtBracket cs).map (fun r => (c :: r.1, r.2))

/-- The method `argNumber` when there are no operands. Returns the unread text, `found`, and
whether `goodArgNum` was cleared (it is whenever an opening bracket is met, as no index is
below the operand count 0). -/
def argNumber : List Char → List Char × Bool × Bool
  | '[' :: tail =>
    if tail.length < 2 then (tail, false, true)
    else
      match splitAtBracket tail with
      | none => (tail, false, true)
      | some (inner, rest) => (rest, decide (parsenumLoop 0 false inner = (true, [])), true)
  | cs => (cs, false, false)

/-- One directive: the text after a percent sign. Returns what is printed and the unread
text (`none` when the format ended before a verb, which ends the whole loop). -/
def verbStep (cs : List Char) : List Char × Option (List Char) :=
  let a1 := argNumber (skipFlags cs)
  -- width
  let w : List Char × Bool × Bool × List Char :=
    match a1.1 with
    | '*' :: r => (r, false, false, "%!(BADWIDTH)".data)
    | r => ((parsenumLoop 0 false r).2, a1.2.1, a1.2.1 && (parsenumLoop 0 false r).1, [])
  -- precision
  let p : List Char × Bool × Bool × List Char :=
    match w.1 with
    | '.' :: r =>
      let a2 := argNumber r
      match a2.1 with
      | '*' :: r2 => (r2, false, w.2.1 || a2.2.2, "%!(BADPREC)".data)
      | r2 => ((parsenumLoop 0 false r2).2, a2.2.1, w.2.1 || a2.2.2, [])
    | r => (r, w.2.1, false, [])
  let a3 := if p.2.1 then (p.1, false, false) else argNumber p.1
  let bad := a1.2.2 || w.2.2.1 || p.2.2.1 || a3.2.2
  match a3.1 with
  | [] => (w.2.2.2 ++ p.2.2.2 ++ "%!(NOVERB)".data, none)
  | verb :: rest =>
    if verb = '%' then (w.2.2.2 ++ p.2.2.2 ++ ['%'], some rest)
    else if bad then (w.2.2.2 ++ p.2.2.2 ++ '%' :: '!' :: verb :: "(BADINDEX)".data, some rest)
    else (w.2.2.2 ++ p.2.2.2 ++ '%' :: '!' :: verb :: "(MISSING)".data, some rest)

/-- The format loop of `doPrintf` with no operands. -/
def doPrintf0 : Nat → List Char → List Char
  | 0, _ => []
  | _ + 1, [] => []
  | fuel + 1, c :: cs =>
    if c = '%' then
      match verbStep cs with
      | (out, none) => out
      | (out, some rest) => out ++ doPrintf0 fuel rest
    else c :: doPrintf0 fuel cs

/-- The text of `fmt.Sprintf(format)` and of `fmt.Errorf(format)` called without operands. -/
def Sprintf0 (format : String) : String :=
  String.mk (doPrintf0 (format.length + 1) format.data)

/-! ## `time.ParseDuration` -/

/-- A Go `error` value, by origin. Errors made by this package carry their text; the
others carry what the library call was given or reported. -/
inductive GoError where
  /-- Made by `fmt.Errorf` in `Client.do`; `Error()` returns `text`. -/
  | errorf (text : String)
  /-- Returned by `json.Marshal`. -/
  | marshal (cause : String)
  /-- Returned by `http.NewRequest` for a method that is not a token. -/
  | invalidMethod (method : String)
  /-- Returned by `http.NewRequest` when `url.Parse` fails. -/
  | urlParse (cause : String)
  /-- Returned by `http.Client.Do`. -/
  | transport (cause : String)
  /-- Returned by `time.ParseDuration` for the text `orig`. -/
  | parseDuration (orig : String)
deriving DecidableEq, Repr

/-- The function `leadingInt`: the leading digits as a number, `none` on overflow past `2^63`. -/
def leadingInt : Nat → List Char → Option (Nat × List Char)
  | x, [] => some (x, [])
  | x, c :: cs =>
    if isDigit c then
      if x > 2 ^ 63 / 10 then none
      else if x * 10 + digitVal c > 2 ^ 63 then none
      else leadingInt (x * 10 + digitVal c) cs
    else some (x, c :: cs)

/-- The function `leadingFraction`: the digits after the point as a number and the scale
(a power of ten, one factor per digit taken); digits past an overflow are read and
dropped. Returns the number, the scale and the unread text. -/
def leadingFraction : Nat → Nat → Bool → List Char → Nat × Nat × List Char
  | x, scale, _, [] => (x, scale, [])
  | x, scale, overflow, c :: cs =>
    if isDigit c then
      if overflow then leadingFraction x scale true cs
      else if x > (2 ^ 63 - 1) / 10 then leadingFraction x scale true cs
      else if x * 10 + digitVal c > 2 ^ 63 then leadingFraction x scale true cs
      else leadingFraction (x * 10 + digitVal c) (scale * 10) false cs
    else (x, scale, c :: cs)

/-- The float64 nearest to the positive fraction `num / den` (ties to the even mantissa),
as a mantissa below `2^53` and a binary exponent; the values that occur here are far
from the subnormal and the infinite range. -/
def roundFloat64 (num den : Nat) : Nat × Int :=
  if num = 0 ∨ den = 0 then (0, 0)
  else
    let k : Int := (Nat.log2 num : Int) - (Nat.log2 den : Int)
    -- the binary logarithm of the fraction, rounded down, is k or k - 1
    let ge : Bool :=
      if 0 ≤ k then decide (den * 2 ^ k.toNat ≤ num) else decide (den ≤ num * 2 ^ (-k).toNat)
    let e : Int := (if ge then k else k - 1) - 52
    let n1 : Nat := if 0 ≤ e then num else num * 2 ^ (-e).toNat
    let d1 : Nat := if 0 ≤ e then den * 2 ^ e.toNat else den
    let m0 := n1 / d1
    let r := n1 % d1
    let m := if 2 * r > d1 ∨ (2 * r = d1 ∧ m0 % 2 = 1) then m0 + 1 else m0
    if m = 2 ^ 53 then (2 ^ 52, e + 1) else (m, e)

/-- The float64 product: the exact product, rounded. -/
def mulFloat64 (a b : Nat × Int) : Nat × Int :=
  if 0 ≤ a.2 + b.2 then roundFloat64 (a.1 * b.1 * 2 ^ (a.2 + b.2).toNat) 1
  else roundFloat64 (a.1 * b.1) (2 ^ (-(a.2 + b.2)).toNat)

/-- The conversion of a float64 to `uint64`: the integer part. -/
def truncFloat64 (a : Nat × Int) : Nat :=
  if 0 ≤ a.2 then a.1 * 2 ^ a.2.toNat else a.1 / 2 ^ (-a.2).toNat

/-- The expression `uint64(float64(f) * (float64(unit) / scale))` of `ParseDuration`: the
nanoseconds of the fractional part. -/
def fractionNanos (f scale unit : Nat) : Nat :=
  truncFloat64 (mulFloat64 (roundFloat64 f 1) (roundFloat64 unit scale))

/-- The unit text: everything up to the next point or digit. -/
def spanUnit : List Char → List Char × List Char
  | [] => ([], [])
  | c :: cs =>
    if c = '.' ∨ isDigit c then ([], c :: cs)
    else ((spanUnit cs).1.cons c, (spanUnit cs).2)

/-- The table `unitMap`, in nanoseconds. -/
def unitMap (u : String) : Option Nat :=
  if u = "ns" then some 1
  else if u = "us" then some 1000
  else if u = "µs" then some 1000
  else if u = "μs" then some 1000
  else if u = "ms" then some 1000000
  else if u = "s" then some 1000000000
  else if u = "m" then some 60000000000
  else if u = "h" then some 3600000000000
  else none

/-- The loop of `ParseDuration` over the segments number-unit; `d` is the sum so far, a
`uint64` (the addition wraps). -/
def parseSegments (orig : String) : Nat → Nat → List Char → Except GoError Nat
  | 0, _, _ => .error (.parseDuration orig)
  | _ + 1, d, [] => .ok d
  | fuel + 1, d, c :: cs =>
    if !(c = '.' || isDigit c) then .error (.parseDuration orig)
    else
      match leadingInt 0 (c :: cs) with
      | none => .error (.parseDuration orig)
      | some (v, s1) =>
        let pre := decide (s1.length ≠ (c :: cs).length)
        -- the fraction f, its scale, whether digits were read, and the unread text
        let fr : Nat × Nat × Bool × List Char :=
          match s1 with
          | '.' :: s2 =>
            ((leadingFraction 0 1 false s2).1, (leadingFraction 0 1 false s2).2.1,
              decide ((leadingFraction 0 1 false s2).2.2.length ≠ s2.length),
              (leadingFraction 0 1 false s2).2.2)
          | _ => (0, 1, false, s1)
        if !pre && !fr.2.2.1 then .error (.parseDuration orig)
        else
          match spanUnit fr.2.2.2 with
          | ([], _) => .error (.parseDuration orig)
          | (u, s3) =>
            match unitMap (String.mk u) with
            | none => .error (.parseDuration orig)
            | some unit =>
              if v > 2 ^ 63 / unit then .error (.parseDuration orig)
              else
                let v1 := if fr.1 > 0 then v * unit + fractionNanos fr.1 fr.2.1 unit else v * unit
                if fr.1 > 0 ∧ v1 > 2 ^ 63 then .error (.parseDuration orig)
                else if (d + v1) % 2 ^ 64 > 2 ^ 63 then .error (.parseDuration orig)
                else parseSegments orig fuel ((d + v1) % 2 ^ 64) s3

/-- The function `time.ParseDuration`: a signed sequence of decimal numbers with units, as
nanoseconds. -/
def ParseDuration (s : String) : Except GoError Int :=
  let neg := decide (s.data.head? = some '-')
  let body := if s.data.head? = some '-' ∨ s.data.head? = some '+' then s.data.tail else s.data
  if body = ['0'] then .ok 0
  else if body = [] then .error (.parseDuration s)
  else
    match parseSegments s (body.length + 1) 0 body with
    | .error e => .error e
    | .ok d =>
      if neg then .ok (-(d : Int))
      else if d > 2 ^ 63 - 1 then .error (.parseDuration s)
      else .ok (d : Int)

/-! ## `encoding/json`: reading one value

`(*Decoder).Decode` first scans one complete JSON value from the front of the body
(what follows it is left unread) and only then stores it; a body with no valid value
in front leaves the recipient untouched.
-/

/-- A scanned JSON value; a number keeps its literal text. -/
inductive JsonValue where
  | null
  | bool (b : Bool)
  | number (lit : List Char)
  | str (s : String)
  | arr (elems : List JsonValue)
  | obj (members : List (String × JsonValue))

/-- JSON white space: space, tab, carriage return, line feed. -/
def isSpace (c : Char) : Bool :=
  c = ' ' || c = '\t' || c = '\r' || c = '\n'

/-- Drops leading white space. -/
def skipSpace : List Char → List Char
  | [] => []
  | c :: cs => if isSpace c then skipSpace cs else c :: cs

/-- The value of a hexadecimal digit. -/
def hexVal (c : Char) : Option Nat :=
  if '0' ≤ c ∧ c ≤ '9' then some (c.toNat - 48)
  else if 'a' ≤ c ∧ c ≤ 'f' then some (c.toNat - 87)
  else if 'A' ≤ c ∧ c ≤ 'F' then some (c.toNat - 55)
  else none

/-- Four hexadecimal digits as a number, and the text after them. -/
def getu4 : List Char → Option (Nat × List Char)
  | a :: b :: c :: d :: rest =>
    match hexVal a, hexVal b, hexVal c, hexVal d with
    | some w, some x, some y, some z => some (((w * 16 + x) * 16 + y) * 16 + z, rest)
    | _, _, _, _ => none
  | _ => none

/-- The text of a string literal after its opening quote, unquoted: the escapes of JSON,
surrogate pairs joined, a lone surrogate replaced by U+FFFD; control characters are
refused. Returns the string and the text after the closing quote. -/
def scanString : Nat → List Char → List Char → Option (String × List Char)
  | 0, _, _ => none
  | _ + 1, [], _ => none
  | fuel + 1, c :: cs, acc =>
    if c = '"' then some (String.mk acc.reverse, cs)
    else if c = '\\' then
      match cs with
      | [] => none
      | e :: rest =>
        if e = 'u' then
          match getu4 rest with
          | none => none
          | some (r, rest1) =>
            if 0xD800 ≤ r ∧ r < 0xE000 then
              match rest1 with
              | '\\' :: 'u' :: rest2 =>
                match getu4 rest2 with
                | some (r2, rest3) =>
                  if r < 0xDC00 ∧ 0xDC00 ≤ r2 ∧ r2 < 0xE000 then
                    scanString fuel rest3
                      (Char.ofNat ((r - 0xD800) * 1024 + (r2 - 0xDC00) + 0x10000) :: acc)
                  else scanString fuel rest1 (Char.ofNat 0xFFFD :: acc)
                | none => scanString fuel rest1 (Char.ofNat 0xFFFD :: acc)
              | _ => scanString fuel rest1 (Char.ofNat 0xFFFD :: acc)
            else scanString fuel rest1 (Char.ofNat r :: acc)
        else if e = '"' then scanString fuel rest ('"' :: acc)
        else if e = '\\' then scanString fuel rest ('\\' :: acc)
        else if e = '/' then scanString fuel rest ('/' :: acc)
        else if e = 'b' then scanString fuel rest (Char.ofNat 8 :: acc)
        else if e = 'f' then scanString fuel rest (Char.ofNat 12 :: acc)
        else if e = 'n' then scanString fuel rest ('\n' :: acc)
        else if e = 'r' then scanString fuel rest ('\r' :: acc)
        else if e = 't' then scanString fuel rest ('\t' :: acc)
        else none
    else if c.toNat < 0x20 then none
    else scanString fuel cs (c :: acc)

/-- The leading digits and the text after them. -/
def spanDigits : List Char → List Char × List Char
  | [] => ([], [])
  | c :: cs =>
    if isDigit c then ((spanDigits cs).1.cons c, (spanDigits cs).2) else ([], c :: cs)

/-- The exponent of a number literal, if one follows. -/
def scanExp (lit : List Char) (cs : List Char) : Option (List Char × List Char) :=
  match cs with
  | e :: rest =>
    if e = 'e' ∨ e = 'E' then
      match rest with
      | s :: rest1 =>
        if s = '+' ∨ s = '-' then
          match spanDigits rest1 with
          | ([], _) => none
          | (ds, rest2) => some (lit ++ e :: s :: ds, rest2)
        else
          match spanDigits rest with
          | ([], _) => none
          | (ds, rest2) => some (lit ++ e :: ds, rest2)
      | [] => none
    else some (lit, cs)
  | [] => some (lit, cs)

/-- The fraction of a number literal, if one follows, then the exponent. -/
def scanFrac (lit : List Char) (cs : List Char) : Option (List Char × List Char) :=
  match cs with
  | '.' :: rest =>
    match spanDigits rest with
    | ([], _) => none
    | (ds, rest1) => scanExp (lit ++ '.' :: ds) rest1
  | _ => scanExp lit cs

/-- The integer part of a number literal: a single 0, or a digit 1-9 and more digits. -/
def scanInt (sign : List Char) (cs : List Char) : Option (List Char × List Char) :=
  match cs with
  | [] => none
  | c :: rest =>
    if c = '0' then scanFrac (sign ++ [c]) rest
    else if isDigit c then scanFrac (sign ++ c :: (spanDigits rest).1) (spanDigits rest).2
    else none

/-- A number literal and the text after it. -/
def scanNumber (cs : List Char) : Option (List Char × List Char) :=
  match cs with
  | '-' :: rest => scanInt ['-'] rest
  | _ => scanInt [] cs

/-- The text after the literal `word`, if the text starts with it. -/
def dropWord (word : List Char) (cs : List Char) : Option (List Char) :=
  if word.isPrefixOf cs then some (cs.drop word.length) else none

/-- The scanner refuses more than this many open arrays and objects. -/
def maxNestingDepth : Nat := 10000

mutual
/-- One JSON value from the front of the text, and the text after it. -/
def parseValue : Nat → Nat → List Char → Option (JsonValue × List Char)
  | 0, _, _ => none
  | fuel + 1, depth, cs =>
    match skipSpace cs with
    | [] => none
    | c :: rest =>
      if c = '{' then
        if depth < maxNestingDepth then
          match skipSpace rest with
          | '}' :: rest1 => some (.obj [], rest1)
          | rest1 => (parseMembers fuel (depth + 1) rest1).map (fun r => (.obj r.1, r.2))
        else none
      else if c = '[' then
        if depth < maxNestingDepth then
          match skipSpace rest with
          | ']' :: rest1 => some (.arr [], rest1)
          | rest1 => (parseElements fuel (depth + 1) rest1).map (fun r => (.arr r.1, r.2))
        else none
      else if c = '"' then
        (scanString (rest.length + 1) rest []).map (fun r => (.str r.1, r.2))
      else if c = 't' then (dropWord "rue".data rest).map (fun r => (.bool true, r))
      else if c = 'f' then (dropWord "alse".data rest).map (fun r => (.bool false, r))
      else if c = 'n' then (dropWord "ull".data rest).map (fun r => (.null, r))
      else (scanNumber (c :: rest)).map (fun r => (.number r.1, r.2))
/-- The members of an object after its opening brace, up to the closing brace. -/
def parseMembers : Nat → Nat → List Char → Option (List (String × JsonValue) × List Char)
  | 0, _, _ => none
  | fuel + 1, depth, cs =>
    match skipSpace cs with
    | '"' :: rest =>
      match scanString (rest.length + 1) rest [] with
      | none => none
      | some (key, rest1) =>
        match skipSpace rest1 with
        | ':' :: rest2 =>
          match parseValue fuel depth rest2 with
          | none => none
          | some (v, rest3) =>
            match skipSpace rest3 with
            | ',' :: rest4 =>
              (parseMembers fuel depth rest4).map (fun r => ((key, v) :: r.1, r.2))
            | '}' :: rest4 => some ([(key, v)], rest4)
            | _ => none
        | _ => none
    | _ => none
/-- The elements of an array after its opening bracket, up to the closing bracket. -/
def parseElements : Nat → Nat → List Char → Option (List JsonValue × List Char)
  | 0, _, _ => none
  | fuel + 1, depth, cs =>
    match parseValue fuel depth cs with
    | none => none
    | some (v, rest) =>
      match skipSpace rest with
      | ',' :: rest1 => (parseElements fuel depth rest1).map (fun r => (v :: r.1, r.2))
      | ']' :: rest1 => some ([v], rest1)
      | _ => none
end

/-- The first JSON value of a body, `none` when the body does not start with one. Every
call of the parser consumes a character within two steps, so the fuel is enough. -/
def readValue (body : String) : Option JsonValue :=
  (parseValue (2 * body.length + 2) 0 body.data).map Prod.fst

/-! ## `encoding/json`: storing a value into a Go variable -/

/-- The digits of an unsigned decimal numeral as a number; `none` when another character
occurs or the text is empty. -/
def parseDigits : Option Nat → List Char → Option Nat
  | acc, [] => acc
  | acc, c :: cs => if isDigit c then parseDigits (some (acc.getD 0 * 10 + digitVal c)) cs else none

/-- The function `strconv.ParseInt(lit, 10, 64)` on a JSON number literal: the literal must
be an integer numeral inside the 64-bit range. -/
def parseInt64 (lit : List Char) : Option Int :=
  match lit with
  | '-' :: ds =>
    match parseDigits none ds with
    | some n => if n ≤ 2 ^ 63 then some (-(n : Int)) else none
    | none => none
  | ds =>
    match parseDigits none ds with
    | some n => if n < 2 ^ 63 then some (n : Int) else none
    | none => none

/-- Storing into a `string`: a JSON string replaces it; `null` and every other value
(a type error, which the callers drop) leave it as it was. -/
def storeString (v : JsonValue) (old : String) : String :=
  match v with
  | .str s => s
  | _ => old

/-- Storing into an `int`: an integer literal in range replaces it; everything else leaves
it as it was. -/
def storeInt (v : JsonValue) (old : Int) : Int :=
  match v with
  | .number lit =>
    match parseInt64 lit with
    | some n => n
    | none => old
  | _ => old

/-- Case folding of a key character as far as it can meet an ASCII field name: ASCII
letters, the Kelvin sign and the long s. -/
def foldChar (c : Char) : Char :=
  if 'a' ≤ c ∧ c ≤ 'z' then Char.ofNat (c.toNat - 32)
  else if c = Char.ofNat 0x212A then 'K'
  else if c = Char.ofNat 0x17F then 'S'
  else c

/-- Whether an object key selects the field with JSON name `name`: names are matched
exactly or, failing that, without regard to case; the field names of this package are
ASCII and pairwise different up to case. -/
def fieldMatch (name : String) (key : String) : Bool :=
  key.data.map foldChar = name.data.map foldChar

/-- Storing into a struct: the members of a JSON object are stored one after the other
through `setField`; any other value leaves the struct as it was. -/
def storeStruct {α : Type} (setField : String → JsonValue → α → α) (v : JsonValue) (old : α) : α :=
  match v with
  | .obj members => members.foldl (fun acc kv => setField kv.1 kv.2 acc) old
  | _ => old

/-- The elements of a JSON array stored one by one onto the elements of the backing
array, and into zero elements where the backing array ends. -/
def storeElems {α : Type} (storeElem : JsonValue → α → α) (zero : α) :
    List JsonValue → List α → List α
  | [], _ => []
  | e :: es, [] => storeElem e zero :: storeElems storeElem zero es []
  | e :: es, m :: ms => storeElem e m :: storeElems storeElem zero es ms

/-- Storing into a slice, given as its elements `old` and the elements `spare` that its
backing array holds beyond its length. A JSON array is stored element by element onto
what the backing array holds (so a second array merges into the elements of the first)
and the slice is cut to the length of the array; the empty array gives a new empty
slice and `null` the nil slice; every other value leaves the slice as it was. -/
def storeSlice {α : Type} (storeElem : JsonValue → α → α) (zero : α) (v : JsonValue)
    (old spare : List α) : List α × List α :=
  match v with
  | .arr [] => ([], [])
  | .arr elems => (storeElems storeElem zero elems (old ++ spare), (old ++ spare).drop elems.length)
  | .null => ([], [])
  | _ => (old, spare)

/-- The call `json.NewDecoder(body).Decode(&recipient)` with its error dropped, for a
recipient stored through `store`. -/
def Decode {α : Type} (store : JsonValue → α → α) (body : String) (recipient : α) : α :=
  match readValue body with
  | none => recipient
  | some v => store v recipient

/-! ## `encoding/base64` and `net/http` helpers -/

/-- The bytes of a string (its UTF-8 encoding). -/
def utf8Bytes (s : String) : List Nat :=
  s.data.flatMap (fun c => (String.utf8EncodeChar c).map UInt8.toNat)

/-- The alphabet of `base64.StdEncoding`. -/
def base64Alphabet : List Char :=
  "ABCDEFGHIJKLMNOPQRSTUVWXYZabcdefghijklmnopqrstuvwxyz0123456789+/".data

/-- The character for a 6-bit value. -/
def base64Char (n : Nat) : Char := base64Alphabet.getD n 'A'

/-- Base64 with padding, three bytes to four characters. -/
def base64Encode : List Nat → List Char
  | a :: b :: c :: rest =>
    base64Char (a / 4) :: base64Char (a % 4 * 16 + b / 16) ::
      base64Char (b % 16 * 4 + c / 64) :: base64Char (c % 64) :: base64Encode rest
  | [a, b] => [base64Char (a / 4), base64Char (a % 4 * 16 + b / 16), base64Char (b % 16 * 4), '=']
  | [a] => [base64Char (a / 4), base64Char (a % 4 * 16), '=', '=']
  | [] => []

/-- The call `base64.StdEncoding.EncodeToString([]byte(s))`. -/
def EncodeToString (s : String) : String := String.mk (base64Encode (utf8Bytes s))

/-- The token characters of HTTP (RFC 7230 tchar): digits, letters and
``! # $ % & ' * + - . ^ _ ` | ~``. -/
def isTokenChar (c : Char) : Bool :=
  (decide (48 ≤ c.toNat) && decide (c.toNat ≤ 57)) ||
  (decide (65 ≤ c.toNat) && decide (c.toNat ≤ 90)) ||
  (decide (97 ≤ c.toNat) && decide (c.toNat ≤ 122)) ||
  decide (c.toNat ∈ [33, 35, 36, 37, 38, 39, 42, 43, 45, 46, 94, 95, 96, 124, 126])

/-- The check `validMethod` of `net/http`: a non-empty token. -/
def validMethod (method : String) : Bool :=
  decide (method.length > 0) && method.data.all isTokenChar

/-- The loop of `canonicalMIMEHeaderKey`: upper case at the start and after a dash, lower
case elsewhere. -/
def canonicalLoop : Bool → List Char → List Char
  | _, [] => []
  | upper, c :: cs =>
    let c1 :=
      if upper ∧ 'a' ≤ c ∧ c ≤ 'z' then Char.ofNat (c.toNat - 32)
      else if ¬ upper ∧ 'A' ≤ c ∧ c ≤ 'Z' then Char.ofNat (c.toNat + 32)
      else c
    c1 :: canonicalLoop (decide (c1 = '-')) cs

/-- The function `textproto.CanonicalMIMEHeaderKey`: a key with a character that is not
a token character is returned as it is. -/
def CanonicalMIMEHeaderKey (key : String) : String :=
  if key.data.all isTokenChar then String.mk (canonicalLoop true key.data) else key

/-! ## Data model -/

/-- An instant, in nanoseconds since the zero value of `time.Time`; `Add` is addition. -/
abbrev Time := Int

/-- An `http.Header`: the pairs in the order in which `Add` stored them. -/
abbrev Header := List (String × String)

/-- The method `Header.Add`. -/
def Header.Add (h : Header) (key value : String) : Header :=
  h ++ [(CanonicalMIMEHeaderKey key, value)]

/-- The method `Header.Values`: every value stored under the key, in order. -/
def Header.Values (h : Header) (key : String) : List String :=
  (h.filter (fun kv => kv.1 = CanonicalMIMEHeaderKey key)).map Prod.snd

/-- An outgoing `http.Request` as far as this package sets it. -/
structure Request where
  Method : String
  URL : String
  Header : Header
  /-- The body reader; `none` is the nil body. -/
  Body : Option String
deriving DecidableEq, Repr

/-- An `http.Response` as far as this package reads it. -/
structure Response where
  StatusCode : Int
  Header : Header
  Body : String
deriving DecidableEq, Repr

/-- What `http.Client.Do` returns: a response with a nil error, or an error (with which a
response may still come). -/
inductive SendOutcome where
  | ok (resp : Response)
  | fail (resp : Option Response) (cause : String)

/-- The struct `Client`; the field `httpClient` is the `send` function of the `World`. -/
structure Client where
  authorization : String
  authToken : String
  AuthTokenExpiry : Time
  debug : Bool
  endpoint : String
deriving DecidableEq, Repr

/-- The struct `StandardError`. -/
structure StandardError where
  Location : String := ""
  Name : String := ""
  Description : String := ""
deriving DecidableEq, Repr

/-- The struct `StandardResponse`, the error envelope of the API. -/
structure StandardResponse where
  Code : Int := 0
  Message : String := ""
  UUID : String := ""
  Object : String := ""
  Cause : String := ""
  Status : String := ""
  Errors : List StandardError := []
  /-- Not a field of the source: the elements that the backing array of `Errors` holds
  beyond the length of the slice. -/
  errorsSpare : List StandardError := []
deriving DecidableEq, Repr

/-- The local struct `authResponse` of `Authenticate`. -/
structure AuthResponse where
  Token : String := ""
  Schema : String := ""
  ExpiresInMinutes : Int := 0
deriving DecidableEq, Repr

/-- The local struct `resp` of `GetBalance`. -/
structure BalanceResponse where
  Balance : Int := 0
deriving DecidableEq, Repr

/-- The field `Document` of `Message`; `V` is the type of the `interface{}` field. -/
structure Document (V : Type) where
  Template : String
  Version : Int
  Password : String
  Variables : V

/-- The struct `Message`. -/
structure Message (V : Type) where
  Content : String
  Destination : String
  CustomerId : String
  Document : Document V

/-- The field `SendOptions` of both request structs. -/
structure SendOptions where
  SenderId : String
  DuplicateCheck : String
  StartDeliveryUtc : String
  EndDeliveryUtc : String
  ReplyRuleSetName : String
  CampaignName : String
  CostCentre : String
  CheckOptOuts : Bool
  ShortenUrls : Bool
  ValidityPeriod : Int
  TestMode : Bool
  RuleName : String
  ReplyRuleVersion : Int
  ExtraForwardEmails : String

/-- The struct `BulkMessageRequest`. -/
structure BulkMessageRequest (V : Type) where
  SendOptions : SendOptions
  Messages : List (Message V)

/-- The struct `GroupMessageRequest`. -/
structure GroupMessageRequest (V : Type) where
  SendOptions : SendOptions
  Message : Message V
  Groups : List String

/-- The field `CostBreakdown` of `BulkMessageResponse`. -/
structure CostBreakdown where
  Quantity : Int := 0
  Cost : Int := 0
  Network : String := ""
deriving DecidableEq, Repr

/-- The field `Faults` of the error report. -/
structure Faults where
  RawDestination : String := ""
  ScrubbedDestination : String := ""
  CustomerID : String := ""
  ErrorMessage : String := ""
  Status : String := ""
deriving DecidableEq, Repr

/-- The field `ErrorReport` of `BulkMessageResponse`. -/
structure ErrorReport where
  NoNetwork : Int := 0
  Duplicates : Int := 0
  OptedOuts : Int := 0
  Faults : Faults := {}
deriving DecidableEq, Repr

/-- The struct `BulkMessageResponse`. -/
structure BulkMessageResponse where
  Cost : Int := 0
  RemainingBalance : Int := 0
  EventID : Int := 0
  Sample : String := ""
  CostBreakdown : CostBreakdown := {}
  Messages : Int := 0
  Parts : Int := 0
  ErrorReport : ErrorReport := {}
deriving DecidableEq, Repr

/-! ## Storing JSON into the response structs (the `json` tags of the source) -/

/-- One member of a JSON object stored into a `StandardError`. -/
def StandardError.setField (key : String) (v : JsonValue) (e : StandardError) : StandardError :=
  if fieldMatch "location" key then { e with Location := storeString v e.Location }
  else if fieldMatch "name" key then { e with Name := storeString v e.Name }
  else if fieldMatch "description" key then { e with Description := storeString v e.Description }
  else e

/-- One member of a JSON object stored into a `StandardResponse`. -/
def StandardResponse.setField (key : String) (v : JsonValue) (m : StandardResponse) :
    StandardResponse :=
  if fieldMatch "code" key then { m with Code := storeInt v m.Code }
  else if fieldMatch "message" key then { m with Message := storeString v m.Message }
  else if fieldMatch "uuid" key then { m with UUID := storeString v m.UUID }
  else if fieldMatch "object" key then { m with Object := storeString v m.Object }
  else if fieldMatch "cause" key then { m with Cause := storeString v m.Cause }
  else if fieldMatch "status" key then { m with Status := storeString v m.Status }
  else if fieldMatch "errors" key then
    { m with
      Errors := (storeSlice (storeStruct StandardError.setField) {} v m.Errors m.errorsSpare).1
      errorsSpare :=
        (storeSlice (storeStruct StandardError.setField) {} v m.Errors m.errorsSpare).2 }
  else m

/-- One member of a JSON object stored into the `authResponse` of `Authenticate`. -/
def AuthResponse.setField (key : String) (v : JsonValue) (a : AuthResponse) : AuthResponse :=
  if fieldMatch "token" key then { a with Token := storeString v a.Token }
  else if fieldMatch "schema" key then { a with Schema := storeString v a.Schema }
  else if fieldMatch "expiresInMinutes" key then
    { a with ExpiresInMinutes := storeInt v a.ExpiresInMinutes }
  else a

/-- One member of a JSON object stored into the `resp` of `GetBalance`. -/
def BalanceResponse.setField (key : String) (v : JsonValue) (b : BalanceResponse) :
    BalanceResponse :=
  if fieldMatch "balance" key then { b with Balance := storeInt v b.Balance } else b

/-- One member of a JSON object stored into a `CostBreakdown`. -/
def CostBreakdown.setField (key : String) (v : JsonValue) (c : CostBreakdown) : CostBreakdown :=
  if fieldMatch "quantity" key then { c with Quantity := storeInt v c.Quantity }
  else if fieldMatch "cost" key then { c with Cost := storeInt v c.Cost }
  else if fieldMatch "network" key then { c with Network := storeString v c.Network }
  else c

/-- One member of a JSON object stored into a `Faults`. -/
def Faults.setField (key : String) (v : JsonValue) (f : Faults) : Faults :=
  if fieldMatch "rawDestination" key then { f with RawDestination := storeString v f.RawDestination }
  else if fieldMatch "scrubbedDestination" key then
    { f with ScrubbedDestination := storeString v f.ScrubbedDestination }
  else if fieldMatch "customerId" key then { f with CustomerID := storeString v f.CustomerID }
  else if fieldMatch "errorMessage" key then { f with ErrorMessage := storeString v f.ErrorMessage }
  else if fieldMatch "status" key then { f with Status := storeString v f.Status }
  else f

/-- One member of a JSON object stored into an `ErrorReport`. -/
def ErrorReport.setField (key : String) (v : JsonValue) (r : ErrorReport) : ErrorReport :=
  if fieldMatch "noNetwork" key then { r with NoNetwork := storeInt v r.NoNetwork }
  else if fieldMatch "duplicates" key then { r with Duplicates := storeInt v r.Duplicates }
  else if fieldMatch "optedOuts" key then { r with OptedOuts := storeInt v r.OptedOuts }
  else if fieldMatch "faults" key then { r with Faults := storeStruct Faults.setField v r.Faults }
  else r

/-- One member of a JSON object stored into a `BulkMessageResponse`. -/
def BulkMessageResponse.setField (key : String) (v : JsonValue) (b : BulkMessageResponse) :
    BulkMessageResponse :=
  if fieldMatch "cost" key then { b with Cost := storeInt v b.Cost }
  else if fieldMatch "remainingBalance" key then
    { b with RemainingBalance := storeInt v b.RemainingBalance }
  else if fieldMatch "eventId" key then { b with EventID := storeInt v b.EventID }
  else if fieldMatch "sample" key then { b with Sample := storeString v b.Sample }
  else if fieldMatch "costBreakdown" key then
    { b with CostBreakdown := storeStruct CostBreakdown.setField v b.CostBreakdown }
  else if fieldMatch "messages" key then { b with Messages := storeInt v b.Messages }
  else if fieldMatch "parts" key then { b with Parts := storeInt v b.Parts }
  else if fieldMatch "errorReport" key then
    { b with ErrorReport := storeStruct ErrorReport.setField v b.ErrorReport }
  else b

/-! ## The environment -/

/-- What the package cannot decide itself: whether `url.Parse` accepts a URL, what the
server answers to a request (given the requests sent before it), and the JSON encoding
of the two request structs (their `Variables` field is an `interface{}`, so
`json.Marshal` can fail). -/
structure World (V : Type) where
  /-- The error of `url.Parse`, if any. -/
  urlParse : String → Option String
  /-- The method `http.Client.Do`; the first argument lists the earlier requests. -/
  send : List Request → Request → SendOutcome
  /-- The function `json.Marshal` on a `BulkMessageRequest`. -/
  marshalBulk : BulkMessageRequest V → Except String String
  /-- The function `json.Marshal` on a `GroupMessageRequest`. -/
  marshalGroup : GroupMessageRequest V → Except String String

/-- The function `json.Marshal` on an `interface{}`: the nil interface encodes as `null`,
another value through `marshal`. A successful result is never a nil slice, so the test
`params != nil` of `Client.do` always holds. -/
def jsonMarshal {P : Type} (marshal : P → Except String String) : Option P → Except String String
  | none => .ok "null"
  | some x => marshal x

/-- The function `http.NewRequest`: an empty method means GET, the method must be a token,
the URL must parse; the new request has no header yet. -/
def NewRequest {V : Type} (w : World V) (method url : String) (body : Option String) :
    Except GoError Request :=
  let method1 := if method = "" then "GET" else method
  if validMethod method1 then
    match w.urlParse url with
    | some cause => .error (.urlParse cause)
    | none => .ok { Method := method1, URL := url, Header := [], Body := body }
  else .error (.invalidMethod method1)

/-! ## `client.go` -/

/-- The pair `(*http.Response, error)` that `Client.do` returns. -/
inductive DoResult where
  /-- A response and the nil error. -/
  | ok (resp : Response)
  /-- A non-nil error, with the response if there is one. -/
  | fail (resp : Option Response) (err : GoError)
deriving DecidableEq, Repr

/-- The error of a `DoResult`, `none` for nil. -/
def DoResult.err : DoResult → Option GoError
  | .ok _ => none
  | .fail _ e => some e

/-- The first half of `Client.do` (up to the debug dump of the request): the body is
encoded, the request is created, and the headers are added. -/
def Client.buildRequest {V P : Type} (w : World V) (c : Client)
    (marshal : P → Except String String) (method path : String) (p : Option P)
    (extraHeaders : List (String × String)) : Except GoError Request :=
  match jsonMarshal marshal p with
  | .error cause => .error (.marshal cause)
  | .ok params =>
    let suffix := ""
    let body := if params ≠ "null" then some params else none
    match NewRequest w method (c.endpoint ++ path ++ suffix) body with
    | .error e => .error e
    | .ok req0 =>
      -- If authentication token is empty, use client ID & secret for authentication.
      let req1 : Request :=
        if c.authToken = "" then
          { req0 with Header := req0.Header.Add "Authorization" c.authorization }
        else { req0 with Header := req0.Header.Add "Authorization" c.authToken }
      let req2 : Request :=
        { req1 with Header := req1.Header.Add "Content-Type" "application/json" }
      .ok (extraHeaders.foldl (fun r h => { r with Header := r.Header.Add h.1 h.2 }) req2)

/-- The method `Client.do`. `log` lists the requests handed to `http.Client.Do` so far; the
result carries the log after the call. -/
def Client.do {V P : Type} (w : World V) (c : Client) (log : List Request)
    (marshal : P → Except String String) (method path : String) (p : Option P)
    (extraHeaders : List (String × String)) : DoResult × List Request :=
  match Client.buildRequest w c marshal method path p extraHeaders with
  | .error e => (.fail none e, log)
  | .ok req =>
    match w.send log req with
    | .fail resp cause => (.fail resp (.transport cause), log ++ [req])
    | .ok resp =>
      if resp.StatusCode < 200 ∨ resp.StatusCode > 299 then
        let message : StandardResponse :=
          Decode (storeStruct StandardResponse.setField) resp.Body {}
        if message.Message ≠ "" then
          (.fail (some resp)
            (.errorf (formatInt resp.StatusCode ++ ": " ++ message.Message)), log ++ [req])
        else if message.Errors.length > 0 then
          let errors := message.Errors.map (fun oneError =>
            oneError.Name ++ ": " ++ oneError.Description)
          (.fail (some resp) (.errorf (Sprintf0 (", ".intercalate errors))), log ++ [req])
        else
          (.fail (some resp) (.errorf (formatInt resp.StatusCode)), log ++ [req])
      else (.ok resp, log ++ [req])

/-- What `Client.ask` leaves behind: the returned header (`none` for nil) and error, the
recipient after the call, and the log. -/
structure AskResult (R : Type) where
  header : Option Header
  err : Option GoError
  recipient : R
  log : List Request

/-- The method `Client.ask`. The recipient is an `interface{}` in the source; `decode` is
what `Decode` does to it for a given body (its error is dropped by `ask`). -/
def Client.ask {V P R : Type} (w : World V) (c : Client) (log : List Request)
    (marshal : P → Except String String) (method path : String) (params : Option P)
    (decode : String → R → R) (recipient : R) : AskResult R :=
  match Client.do w c log marshal method path params [] with
  | (.fail _ e, log1) => { header := none, err := some e, recipient := recipient, log := log1 }
  | (.ok resp, log1) =>
    { header := some resp.Header, err := none, recipient := decode resp.Body recipient,
      log := log1 }

/-- The method `Client.get`. -/
def Client.get {V P R : Type} (w : World V) (c : Client) (log : List Request)
    (marshal : P → Except String String) (path : String) (params : Option P)
    (decode : String → R → R) (recipient : R) : AskResult R :=
  Client.ask w c log marshal "GET" path params decode recipient

/-- The method `Client.post`. -/
def Client.post {V P R : Type} (w : World V) (c : Client) (log : List Request)
    (marshal : P → Except String String) (path : String) (params : Option P)
    (decode : String → R → R) (recipient : R) : AskResult R :=
  Client.ask w c log marshal "POST" path params decode recipient

/-- The method `Client.put`. -/
def Client.put {V P R : Type} (w : World V) (c : Client) (log : List Request)
    (marshal : P → Except String String) (path : String) (params : Option P)
    (decode : String → R → R) (recipient : R) : AskResult R :=
  Client.ask w c log marshal "PUT" path params decode recipient

/-- The method `Client.patch`. -/
def Client.patch {V P R : Type} (w : World V) (c : Client) (log : List Request)
    (marshal : P → Except String String) (path : String) (params : Option P)
    (decode : String → R → R) (recipient : R) : AskResult R :=
  Client.ask w c log marshal "PATCH" path params decode recipient

/-- The method `Client.delete`. -/
def Client.delete {V P R : Type} (w : World V) (c : Client) (log : List Request)
    (marshal : P → Except String String) (path : String) (params : Option P)
    (decode : String → R → R) (recipient : R) : AskResult R :=
  Client.ask w c log marshal "DELETE" path params decode recipient

/-- A call with the untyped `nil` as request body has no value to encode. -/
def marshalNil : Empty → Except String String := fun x => nomatch x

/-- What a method with receiver `*Client` and result `error` leaves behind. -/
structure CallResult where
  err : Option GoError
  client : Client
  log : List Request
deriving DecidableEq, Repr

/-- The method `Client.Authenticate`; `now` is what `time.Now()` returns in it. -/
def Client.Authenticate {V : Type} (w : World V) (c : Client) (log : List Request)
    (now : Time) : CallResult :=
  let r := Client.get w c log marshalNil "Authentication" none
    (Decode (storeStruct AuthResponse.setField)) ({} : AuthResponse)
  match r.err with
  | some e => { err := some e, client := c, log := r.log }
  | none =>
    match ParseDuration (formatInt r.recipient.ExpiresInMinutes ++ "m") with
    | .error e => { err := some e, client := c, log := r.log }
    | .ok duration =>
      { err := none,
        client := { c with AuthTokenExpiry := now + duration,
                           authToken := "Bearer " ++ r.recipient.Token },
        log := r.log }

/-- The function `NewClient`: the client (`none` for nil), the error, and the log. -/
def NewClient {V : Type} (w : World V) (clientID clientSecret : String) (debug : Bool)
    (now : Time) : Option Client × Option GoError × List Request :=
  let authorization := "BASIC " ++ EncodeToString (clientID ++ ":" ++ clientSecret)
  let client : Client :=
    { authorization := authorization, authToken := "", AuthTokenExpiry := 0, debug := debug,
      endpoint := "https://rest.mymobileapi.com/v1/" }
  let r := Client.Authenticate w client [] now
  match r.err with
  | some e => (none, some e, r.log)
  | none => (some r.client, none, r.log)

/-! ## `mymobileapi.go` -/

/-- The method `Client.GetBalance`: the balance, the error, and the log. -/
def Client.GetBalance {V : Type} (w : World V) (c : Client) (log : List Request) :
    Int × Option GoError × List Request :=
  let r := Client.get w c log marshalNil "Balance" none
    (Decode (storeStruct BalanceResponse.setField)) ({} : BalanceResponse)
  match r.err with
  | some e => (0, some e, r.log)
  | none => (r.recipient.Balance, none, r.log)

/-- The method `Client.SendBulkMessages`: the named results `resp` and `err`, and the log. -/
def Client.SendBulkMessages {V : Type} (w : World V) (c : Client) (log : List Request)
    (data : BulkMessageRequest V) : BulkMessageResponse × Option GoError × List Request :=
  let r := Client.post w c log w.marshalBulk "BulkMessages" (some data)
    (Decode (storeStruct BulkMessageResponse.setField)) ({} : BulkMessageResponse)
  (r.recipient, r.err, r.log)

/-- The method `Client.SendGroupMessages`: the named results `resp` and `err`, and the log. -/
def Client.SendGroupMessages {V : Type} (w : World V) (c : Client) (log : List Request)
    (data : GroupMessageRequest V) : BulkMessageResponse × Option GoError × List Request :=
  let r := Client.post w c log w.marshalGroup "GroupMessages" (some data)
    (Decode (storeStruct BulkMessageResponse.setField)) ({} : BulkMessageResponse)
  (r.recipient, r.err, r.log)

/-! ## Sequences of calls on one client -/

/-- A call of an exported method on a constructed client. -/
inductive Op (V : Type) where
  | Authenticate (now : Time)
  | GetBalance
  | SendBulkMessages (data : BulkMessageRequest V)
  | SendGroupMessages (data : GroupMessageRequest V)

/-- The client and the log after one call. -/
def Op.step {V : Type} (w : World V) (s : Client × List Request) : Op V → Client × List Request
  | .Authenticate now => ((Client.Authenticate w s.1 s.2 now).client, (Client.Authenticate w s.1 s.2 now).log)
  | .GetBalance => (s.1, (Client.GetBalance w s.1 s.2).2.2)
  | .SendBulkMessages data => (s.1, (Client.SendBulkMessages w s.1 s.2 data).2.2)
  | .SendGroupMessages data => (s.1, (Client.SendGroupMessages w s.1 s.2 data).2.2)

/-- The path that a call requests. -/
def Op.path {V : Type} : Op V → String
  | .Authenticate _ => "Authentication"
  | .GetBalance => "Balance"
  | .SendBulkMessages _ => "BulkMessages"
  | .SendGroupMessages _ => "GroupMessages"

/-- The client and the log after a sequence of calls. -/
def run {V : Type} (w : World V) (s : Client × List Request) (ops : List (Op V)) :
    Client × List Request :=
  ops.foldl (Op.step w) s

/-! ## A scripted server, for concrete runs -/

/-- A world in which every URL parses, the two request structs encode as an empty
object, and the server answers the n-th request with the n-th scripted response (and
fails once the script is used up). -/
def scripted (script : List Response) : World Unit where
  urlParse := fun _ => none
  send := fun log _ =>
    match script.get? log.length with
    | some resp => .ok resp
    | none => .fail none "EOF"
  marshalBulk := fun _ => .ok "\x7b\x7d"
  marshalGroup := fun _ => .ok "\x7b\x7d"

/-- The request that `NewClient` sends: a GET of the Authentication path with the
BASIC value made of the credential pair. -/
def authenticationRequest (clientID clientSecret : String) : Request :=
  { Method := "GET", URL := "https://rest.mymobileapi.com/v1/Authentication",
    Header := [("Authorization", "BASIC " ++ EncodeToString (clientID ++ ":" ++ clientSecret)),
               ("Content-Type", "application/json")],
    Body := none }

/-- A client as `NewClient "id" "secret" false` leaves it after the server issued the
token `t`, valid for one minute from the instant 1000. -/
def demoClient : Client :=
  { authorization := "BASIC aWQ6c2VjcmV0", authToken := "Bearer t",
    AuthTokenExpiry := 60000001000, debug := false,
    endpoint := "https://rest.mymobileapi.com/v1/" }

/-! ## Theorems -/

/-- C1. A response with a status outside [200,299] whose decoded envelope has a non-empty
`message` makes `Client.do` return the error with text "status: message" (decimal status,
colon, space, message), whatever the `errors` list holds; `Client.ask` (and so `get`,
`post`, `put`, `patch`, `delete`, which are `ask` at a fixed method) returns that error. -/
theorem do_error_text_status_message {V P R : Type} (w : World V) (c : Client)
    (log : List Request) (marshal : P → Except String String) (method path : String)
    (p : Option P) (extraHeaders : List (String × String)) (req : Request) (resp : Response)
    (decode : String → R → R) (recipient : R)
    (hreq : Client.buildRequest w c marshal method path p extraHeaders = .ok req)
    (hsend : w.send log req = .ok resp)
    (hstatus : resp.StatusCode < 200 ∨ resp.StatusCode > 299)
    (hmsg : (Decode (storeStruct StandardResponse.setField) resp.Body {}).Message ≠ "") :
    (Client.do w c log marshal method path p extraHeaders).1 =
        .fail (some resp) (.errorf (formatInt resp.StatusCode ++ ": " ++
          (Decode (storeStruct StandardResponse.setField) resp.Body {}).Message)) ∧
      (extraHeaders = [] →
        (Client.ask w c log marshal method path p decode recipient).err =
          some (.errorf (formatInt resp.StatusCode ++ ": " ++
            (Decode (storeStruct StandardResponse.setField) resp.Body {}).Message))) := by
  have hdo : (Client.do w c log marshal method path p extraHeaders) =
      (.fail (some resp) (.errorf (formatInt resp.StatusCode ++ ": " ++
          (Decode (storeStruct StandardResponse.setField) resp.Body {}).Message)),
        log ++ [req]) := by
    unfold Client.do
    simp only [hreq, hsend]
    rw [if_pos hstatus]
    simp only [hmsg, ne_eq, not_false_eq_true, if_true]
  refine ⟨by rw [hdo], ?_⟩
  intro he
  subst he
  unfold Client.ask
  rw [hdo]

/-- C1, at a concrete exchange: status 404 with the envelope message "not found" and a
non-empty `errors` list. -/
theorem do_error_text_status_message_witness :
    (Client.do (scripted [⟨404, [],
        "\x7b\"message\":\"not found\",\"errors\":[\x7b\"name\":\"a\",\"description\":\"b\"\x7d]\x7d"⟩])
      demoClient [] marshalNil "GET" "Balance" none []).1 =
      .fail (some ⟨404, [],
        "\x7b\"message\":\"not found\",\"errors\":[\x7b\"name\":\"a\",\"description\":\"b\"\x7d]\x7d"⟩)
        (.errorf "404: not found") :=
  (do_error_text_status_message (R := Unit) (scripted [⟨404, [],
        "\x7b\"message\":\"not found\",\"errors\":[\x7b\"name\":\"a\",\"description\":\"b\"\x7d]\x7d"⟩])
    demoClient [] marshalNil "GET" "Balance" none []
    ⟨"GET", "https://rest.mymobileapi.com/v1/Balance",
      [("Authorization", "Bearer t"), ("Content-Type", "application/json")], none⟩
    ⟨404, [],
      "\x7b\"message\":\"not found\",\"errors\":[\x7b\"name\":\"a\",\"description\":\"b\"\x7d]\x7d"⟩
    (fun _ r => r) () rfl rfl (by decide) (by decide)).1

/-- The extra headers only touch the header of the request. -/
theorem foldl_extraHeaders_fields (extraHeaders : List (String × String)) (r : Request) :
    (extraHeaders.foldl (fun r h => { r with Header := r.Header.Add h.1 h.2 }) r).Body = r.Body ∧
    (extraHeaders.foldl (fun r h => { r with Header := r.Header.Add h.1 h.2 }) r).URL = r.URL ∧
    (extraHeaders.foldl (fun r h => { r with Header := r.Header.Add h.1 h.2 }) r).Method =
      r.Method := by
  induction extraHeaders generalizing r with
  | nil => exact ⟨rfl, rfl, rfl⟩
  | cons h t ih => simpa using ih _

/-- A request that `http.NewRequest` returns has the given URL and body, the method (GET
for the empty one), and no header. -/
theorem NewRequest_ok {V : Type} (w : World V) (method url : String) (body : Option String)
    (req0 : Request) (h : NewRequest w method url body = .ok req0) :
    req0 = { Method := if method = "" then "GET" else method, URL := url, Header := [],
             Body := body } ∧
    validMethod (if method = "" then "GET" else method) = true ∧ w.urlParse url = none := by
  unfold NewRequest at h
  by_cases hv : validMethod (if method = "" then "GET" else method) = true
  · cases hu : w.urlParse url with
    | some cause => simp [hv, hu] at h
    | none =>
      simp only [hv, hu, if_true] at h
      injection h with h
      exact ⟨h.symm, hv, rfl⟩
  · simp [hv] at h

/-- The request that `Client.do` builds carries the encoded body, unless that is `null`. -/
theorem buildRequest_body {V P : Type} (w : World V) (c : Client)
    (marshal : P → Except String String) (method path : String) (p : Option P)
    (extraHeaders : List (String × String)) (params : String) (req : Request)
    (hm : jsonMarshal marshal p = .ok params)
    (hreq : Client.buildRequest w c marshal method path p extraHeaders = .ok req) :
    req.Body = if params ≠ "null" then some params else none := by
  unfold Client.buildRequest at hreq
  simp only [hm] at hreq
  split at hreq
  · simp at hreq
  · rename_i req0 hnew
    injection hreq with hreq
    rw [← hreq, (foldl_extraHeaders_fields _ _).1]
    rw [(NewRequest_ok _ _ _ _ _ hnew).1]
    split <;> (by_cases hp : params = "null" <;> simp [hp])

/-- C3. A response with a status outside [200,299] whose decoded envelope has an empty
`message` and an empty `errors` list makes `Client.do` return a non-nil error whose text
is the decimal status code; so does a body that holds no JSON value at all. -/
theorem do_error_text_bare_status {V P : Type} (w : World V) (c : Client)
    (log : List Request) (marshal : P → Except String String) (method path : String)
    (p : Option P) (extraHeaders : List (String × String)) (req : Request) (resp : Response)
    (hreq : Client.buildRequest w c marshal method path p extraHeaders = .ok req)
    (hsend : w.send log req = .ok resp)
    (hstatus : resp.StatusCode < 200 ∨ resp.StatusCode > 299) :
    ((Decode (storeStruct StandardResponse.setField) resp.Body {}).Message = "" ∧
        (Decode (storeStruct StandardResponse.setField) resp.Body {}).Errors = [] →
      (Client.do w c log marshal method path p extraHeaders).1 =
        .fail (some resp) (.errorf (formatInt resp.StatusCode))) ∧
    (readValue resp.Body = none →
      (Client.do w c log marshal method path p extraHeaders).1 =
        .fail (some resp) (.errorf (formatInt resp.StatusCode))) := by
  have key : (Decode (storeStruct StandardResponse.setField) resp.Body {}).Message = "" ∧
        (Decode (storeStruct StandardResponse.setField) resp.Body {}).Errors = [] →
      (Client.do w c log marshal method path p extraHeaders).1 =
        .fail (some resp) (.errorf (formatInt resp.StatusCode)) := by
    rintro ⟨hm, he⟩
    unfold Client.do
    simp only [hreq, hsend]
    rw [if_pos hstatus]
    simp [hm, he]
  refine ⟨key, fun hnone => key ?_⟩
  unfold Decode
  rw [hnone]
  exact ⟨rfl, rfl⟩

/-- C3, at concrete exchanges: status 503 with an HTML body, and status 500 with an
envelope that has neither message nor errors. -/
theorem do_error_text_bare_status_witness :
    (Client.do (scripted [⟨503, [], "<html>Service Unavailable</html>"⟩])
        demoClient [] marshalNil "GET" "Balance" none []).1 =
      .fail (some ⟨503, [], "<html>Service Unavailable</html>"⟩) (.errorf "503") ∧
    (Client.do (scripted [⟨500, [], "\x7b\"code\":7,\"errors\":[]\x7d"⟩])
        demoClient [] marshalNil "GET" "Balance" none []).1 =
      .fail (some ⟨500, [], "\x7b\"code\":7,\"errors\":[]\x7d"⟩) (.errorf "500") :=
  ⟨(do_error_text_bare_status (scripted [⟨503, [], "<html>Service Unavailable</html>"⟩])
      demoClient [] marshalNil "GET" "Balance" none []
      ⟨"GET", "https://rest.mymobileapi.com/v1/Balance",
        [("Authorization", "Bearer t"), ("Content-Type", "application/json")], none⟩
      ⟨503, [], "<html>Service Unavailable</html>"⟩ rfl rfl (by decide)).2 rfl,
   (do_error_text_bare_status (scripted [⟨500, [], "\x7b\"code\":7,\"errors\":[]\x7d"⟩])
      demoClient [] marshalNil "GET" "Balance" none []
      ⟨"GET", "https://rest.mymobileapi.com/v1/Balance",
        [("Authorization", "Bearer t"), ("Content-Type", "application/json")], none⟩
      ⟨500, [], "\x7b\"code\":7,\"errors\":[]\x7d"⟩ rfl rfl (by decide)).1 (by decide)⟩

/-- C6. Whenever `Authenticate` returns a non-nil error, the client is exactly as it was
before the call: `authToken`, `AuthTokenExpiry` and every other field are unchanged. -/
theorem Authenticate_error_leaves_client {V : Type} (w : World V) (c : Client)
    (log : List Request) (now : Time)
    (herr : (Client.Authenticate w c log now).err ≠ none) :
    (Client.Authenticate w c log now).client = c := by
  unfold Client.Authenticate at herr ⊢
  dsimp only at herr ⊢
  split
  · rfl
  · split
    · rfl
    · rename_i h1 _ _ h2
      simp only [h1, h2] at herr
      exact absurd rfl herr

/-- C6, at a concrete exchange: the server answers 401 to a second authentication. -/
theorem Authenticate_error_leaves_client_witness :
    (Client.Authenticate (scripted [⟨401, [], "\x7b\"message\":\"expired\"\x7d"⟩])
      demoClient [] 5000).client = demoClient :=
  Authenticate_error_leaves_client (scripted [⟨401, [], "\x7b\"message\":\"expired\"\x7d"⟩])
    demoClient [] 5000 (by decide)

/-- C10. If encoding the request body fails, `Client.do` returns that error and no request
is handed to the HTTP client. Otherwise the request it builds has no body exactly when
the encoding is the literal `null` (as for a nil body), carries the encoding unchanged
in every other case (so `null` is never sent), and is the request handed to the HTTP
client. -/
theorem do_request_body {V P : Type} (w : World V) (c : Client)
    (log : List Request) (marshal : P → Except String String) (method path : String)
    (p : Option P) (extraHeaders : List (String × String)) :
    (∀ cause, jsonMarshal marshal p = .error cause →
      Client.do w c log marshal method path p extraHeaders =
        (.fail none (.marshal cause), log)) ∧
    (∀ params req, jsonMarshal marshal p = .ok params →
      Client.buildRequest w c marshal method path p extraHeaders = .ok req →
      (req.Body = none ↔ params = "null") ∧
      (params ≠ "null" → req.Body = some params) ∧
      req.Body ≠ some "null" ∧
      (Client.do w c log marshal method path p extraHeaders).2 = log ++ [req]) := by
  constructor
  · intro cause hm
    unfold Client.do Client.buildRequest
    simp only [hm]
  · intro params req hm hreq
    have hb := buildRequest_body w c marshal method path p extraHeaders params req hm hreq
    refine ⟨?_, ?_, ?_, ?_⟩
    · rw [hb]
      by_cases h : params = "null" <;> simp [h]
    · intro h
      rw [hb]
      simp [h]
    · rw [hb]
      by_cases h : params = "null"
      · simp [h]
      · simp only [ne_eq, h, not_false_eq_true, if_true]
        intro hs
        injection hs with hs
        exact h hs
    · unfold Client.do
      simp only [hreq]
      split
      · rfl
      · split
        · split <;> [rfl; (split <;> rfl)]
        · rfl

/-- C10, at concrete calls: a failing encoder, a nil body, and an object body. -/
theorem do_request_body_witness :
    Client.do (scripted []) demoClient [] (fun _ : Unit => Except.error "unsupported type")
        "POST" "BulkMessages" (some ()) [] =
      (.fail none (.marshal "unsupported type"), []) ∧
    (Client.do (scripted []) demoClient [] marshalNil "GET" "Balance" none []).2 =
      [⟨"GET", "https://rest.mymobileapi.com/v1/Balance",
        [("Authorization", "Bearer t"), ("Content-Type", "application/json")], none⟩] ∧
    (Client.do (scripted []) demoClient [] (fun _ : Unit => Except.ok "\x7b\"a\":1\x7d")
        "POST" "BulkMessages" (some ()) []).2 =
      [⟨"POST", "https://rest.mymobileapi.com/v1/BulkMessages",
        [("Authorization", "Bearer t"), ("Content-Type", "application/json")],
        some "\x7b\"a\":1\x7d"⟩] :=
  ⟨(do_request_body (scripted []) demoClient [] (fun _ : Unit => Except.error "unsupported type")
      "POST" "BulkMessages" (some ()) []).1 "unsupported type" rfl,
   ((do_request_body (scripted []) demoClient [] marshalNil "GET" "Balance" none []).2 "null"
      ⟨"GET", "https://rest.mymobileapi.com/v1/Balance",
        [("Authorization", "Bearer t"), ("Content-Type", "application/json")], none⟩
      rfl rfl).2.2.2,
   ((do_request_body (scripted []) demoClient [] (fun _ : Unit => Except.ok "\x7b\"a\":1\x7d")
      "POST" "BulkMessages" (some ()) []).2 "\x7b\"a\":1\x7d"
      ⟨"POST", "https://rest.mymobileapi.com/v1/BulkMessages",
        [("Authorization", "Bearer t"), ("Content-Type", "application/json")],
        some "\x7b\"a\":1\x7d"⟩
      rfl rfl).2.2.2⟩

/-- The key `Authorization` is in canonical form. -/
theorem canonical_Authorization : CanonicalMIMEHeaderKey "Authorization" = "Authorization" := by
  decide

/-- The key `Content-Type` is in canonical form. -/
theorem canonical_ContentType : CanonicalMIMEHeaderKey "Content-Type" = "Content-Type" := by
  decide

/-- The request built by `Client.ask` (no extra headers) for a valid method and a URL that
parses: the two headers, of which `Authorization` is the BASIC value while no token is
stored and the token afterwards. -/
theorem buildRequest_eq {V P : Type} (w : World V) (c : Client)
    (marshal : P → Except String String) (method path : String) (p : Option P)
    (params : String) (hm : jsonMarshal marshal p = .ok params)
    (hv : validMethod method = true) (hne : method ≠ "")
    (hu : w.urlParse (c.endpoint ++ path) = none) :
    Client.buildRequest w c marshal method path p [] =
      .ok { Method := method, URL := c.endpoint ++ path,
            Header := [("Authorization", if c.authToken = "" then c.authorization else c.authToken),
                       ("Content-Type", "application/json")],
            Body := if params = "null" then none else some params } := by
  unfold Client.buildRequest
  simp only [hm]
  unfold NewRequest
  simp only [String.append_empty, hne, if_false, hv, if_true, hu, Header.Add,
    canonical_Authorization, canonical_ContentType, List.foldl_nil, List.nil_append]
  by_cases ht : c.authToken = "" <;> by_cases hp : params = "null" <;> simp [ht, hp]

/-- Text without a percent sign is printed as it is. -/
theorem doPrintf0_of_no_percent (cs : List Char) (h : '%' ∉ cs) (fuel : Nat)
    (hf : cs.length < fuel) : doPrintf0 fuel cs = cs := by
  induction cs generalizing fuel with
  | nil => cases fuel <;> rfl
  | cons c cs ih =>
    cases fuel with
    | zero => simp at hf
    | succ fuel =>
      have hc : c ≠ '%' := fun e => h (by simp [e])
      have hcs : '%' ∉ cs := fun e => h (by simp [e])
      simp only [doPrintf0, hc, if_false]
      rw [ih hcs fuel (by simpa using hf)]

/-- A format without a percent sign and without operands prints itself. -/
theorem Sprintf0_of_no_percent (s : String) (h : '%' ∉ s.data) : Sprintf0 s = s := by
  show String.mk (doPrintf0 (s.data.length + 1) s.data) = s
  rw [doPrintf0_of_no_percent _ h _ (Nat.lt_succ_self _)]

/-- Field errors in general. With an empty `message` and a non-empty `errors` list the
error text is `fmt.Errorf` applied to the joined "name: description" pairs as its
format; when the joined text holds no percent sign, it is that text. -/
theorem do_error_text_field_errors {V P : Type} (w : World V) (c : Client)
    (log : List Request) (marshal : P → Except String String) (method path : String)
    (p : Option P) (extraHeaders : List (String × String)) (req : Request) (resp : Response)
    (hreq : Client.buildRequest w c marshal method path p extraHeaders = .ok req)
    (hsend : w.send log req = .ok resp)
    (hstatus : resp.StatusCode < 200 ∨ resp.StatusCode > 299)
    (hmsg : (Decode (storeStruct StandardResponse.setField) resp.Body {}).Message = "")
    (herrs : (Decode (storeStruct StandardResponse.setField) resp.Body {}).Errors ≠ []) :
    (Client.do w c log marshal method path p extraHeaders).1 =
      .fail (some resp) (.errorf (Sprintf0 (", ".intercalate
        ((Decode (storeStruct StandardResponse.setField) resp.Body {}).Errors.map
          (fun e => e.Name ++ ": " ++ e.Description))))) ∧
    ('%' ∉ (", ".intercalate
        ((Decode (storeStruct StandardResponse.setField) resp.Body {}).Errors.map
          (fun e => e.Name ++ ": " ++ e.Description))).data →
      (Client.do w c log marshal method path p extraHeaders).1 =
        .fail (some resp) (.errorf (", ".intercalate
          ((Decode (storeStruct StandardResponse.setField) resp.Body {}).Errors.map
            (fun e => e.Name ++ ": " ++ e.Description))))) := by
  have hlen : (Decode (storeStruct StandardResponse.setField) resp.Body {}).Errors.length > 0 :=
    List.length_pos.mpr herrs
  have hdo : (Client.do w c log marshal method path p extraHeaders).1 =
      .fail (some resp) (.errorf (Sprintf0 (", ".intercalate
        ((Decode (storeStruct StandardResponse.setField) resp.Body {}).Errors.map
          (fun e => e.Name ++ ": " ++ e.Description))))) := by
    unfold Client.do
    simp only [hreq, hsend]
    rw [if_pos hstatus]
    simp only [hmsg, ne_eq, not_true_eq_false, if_false, hlen, if_true]
  refine ⟨hdo, fun hno => ?_⟩
  rw [hdo, Sprintf0_of_no_percent _ hno]

/-- C2, where the source departs from the claim. The server answers 422 with two field
errors, the first description ending in a percent sign. The joined text is
"discount: must not exceed 100%, code: unknown"; `Client.do` uses it as a format, and
the error text comes out with the comma turned into a missing-operand mark. -/
theorem do_error_text_field_errors_percent :
    (Decode (storeStruct StandardResponse.setField)
      "\x7b\"errors\":[\x7b\"name\":\"discount\",\"description\":\"must not exceed 100%\"\x7d,\x7b\"name\":\"code\",\"description\":\"unknown\"\x7d]\x7d"
      {}) =
      { Errors := [{ Name := "discount", Description := "must not exceed 100%" },
                   { Name := "code", Description := "unknown" }] } ∧
    (Client.do (scripted [⟨422, [],
        "\x7b\"errors\":[\x7b\"name\":\"discount\",\"description\":\"must not exceed 100%\"\x7d,\x7b\"name\":\"code\",\"description\":\"unknown\"\x7d]\x7d"⟩])
      demoClient [] marshalNil "GET" "Balance" none []).1.err =
      some (.errorf "discount: must not exceed 100%!,(MISSING) code: unknown") ∧
    "discount: must not exceed 100%!,(MISSING) code: unknown" ≠
      ", ".intercalate ["discount" ++ ": " ++ "must not exceed 100%", "code" ++ ": " ++ "unknown"] := by
  decide

/-- `Client.ask` returns the error of `Client.do`. -/
theorem ask_err_eq {V P R : Type} (w : World V) (c : Client) (log : List Request)
    (marshal : P → Except String String) (method path : String) (p : Option P)
    (decode : String → R → R) (recipient : R) :
    (Client.ask w c log marshal method path p decode recipient).err =
      (Client.do w c log marshal method path p []).1.err := by
  unfold Client.ask
  split <;> rename_i h <;> rw [h] <;> rfl

/-- `Client.do` when the request cannot be built: that error, and nothing is sent. -/
theorem do_of_build_error {V P : Type} (w : World V) (c : Client) (log : List Request)
    (marshal : P → Except String String) (method path : String) (p : Option P)
    (extraHeaders : List (String × String)) (e : GoError)
    (hreq : Client.buildRequest w c marshal method path p extraHeaders = .error e) :
    Client.do w c log marshal method path p extraHeaders = (.fail none e, log) := by
  unfold Client.do
  simp only [hreq]

/-- `Client.do` when the transport fails. -/
theorem do_of_send_fail {V P : Type} (w : World V) (c : Client) (log : List Request)
    (marshal : P → Except String String) (method path : String) (p : Option P)
    (extraHeaders : List (String × String)) (req : Request) (resp : Option Response)
    (cause : String)
    (hreq : Client.buildRequest w c marshal method path p extraHeaders = .ok req)
    (hsend : w.send log req = .fail resp cause) :
    Client.do w c log marshal method path p extraHeaders =
      (.fail resp (.transport cause), log ++ [req]) := by
  unfold Client.do
  simp only [hreq, hsend]

/-- `Client.do` when the status is in [200,299]. -/
theorem do_of_status_ok {V P : Type} (w : World V) (c : Client) (log : List Request)
    (marshal : P → Except String String) (method path : String) (p : Option P)
    (extraHeaders : List (String × String)) (req : Request) (resp : Response)
    (hreq : Client.buildRequest w c marshal method path p extraHeaders = .ok req)
    (hsend : w.send log req = .ok resp)
    (h1 : 200 ≤ resp.StatusCode) (h2 : resp.StatusCode ≤ 299) :
    Client.do w c log marshal method path p extraHeaders = (.ok resp, log ++ [req]) := by
  have hstatus : ¬ (resp.StatusCode < 200 ∨ resp.StatusCode > 299) := by omega
  unfold Client.do
  simp only [hreq, hsend, if_neg hstatus]

/-- `Client.do` when the status is outside [200,299]: an error made by `fmt.Errorf`,
together with the response. -/
theorem do_of_status_bad {V P : Type} (w : World V) (c : Client) (log : List Request)
    (marshal : P → Except String String) (method path : String) (p : Option P)
    (extraHeaders : List (String × String)) (req : Request) (resp : Response)
    (hreq : Client.buildRequest w c marshal method path p extraHeaders = .ok req)
    (hsend : w.send log req = .ok resp)
    (hstatus : resp.StatusCode < 200 ∨ resp.StatusCode > 299) :
    ∃ text, Client.do w c log marshal method path p extraHeaders =
      (.fail (some resp) (.errorf text), log ++ [req]) := by
  unfold Client.do
  simp only [hreq, hsend, if_pos hstatus]
  split
  · exact ⟨_, rfl⟩
  · split <;> exact ⟨_, rfl⟩

/-- The error of `Client.do` by cases: none exactly for a built request that the server
answers with a status in [200,299]. -/
theorem do_err_eq_none_iff {V P : Type} (w : World V) (c : Client) (log : List Request)
    (marshal : P → Except String String) (method path : String) (p : Option P)
    (extraHeaders : List (String × String)) :
    (Client.do w c log marshal method path p extraHeaders).1.err = none ↔
      ∃ req resp, Client.buildRequest w c marshal method path p extraHeaders = .ok req ∧
        w.send log req = .ok resp ∧ 200 ≤ resp.StatusCode ∧ resp.StatusCode ≤ 299 := by
  cases hreq : Client.buildRequest w c marshal method path p extraHeaders with
  | error e =>
    rw [do_of_build_error _ _ _ _ _ _ _ _ e hreq]
    simp [DoResult.err]
  | ok req =>
    cases hsend : w.send log req with
    | fail resp cause =>
      rw [do_of_send_fail _ _ _ _ _ _ _ _ req resp cause hreq hsend]
      simp [DoResult.err, hsend]
    | ok resp =>
      by_cases hstatus : resp.StatusCode < 200 ∨ resp.StatusCode > 299
      · obtain ⟨text, ht⟩ := do_of_status_bad _ _ _ _ _ _ _ _ req resp hreq hsend hstatus
        rw [ht]
        constructor
        · intro h
          simp [DoResult.err] at h
        · rintro ⟨req1, resp1, h1, h2, h3⟩
          injection h1 with h1
          subst h1
          rw [hsend] at h2
          injection h2 with h2
          subst h2
          omega
      · rw [do_of_status_ok _ _ _ _ _ _ _ _ req resp hreq hsend (by omega) (by omega)]
        simp only [DoResult.err, true_iff]
        exact ⟨req, resp, rfl, hsend, by omega, by omega⟩

/-- Why `Client.buildRequest` fails: the encoder failed, the method is not a token, or the
URL does not parse. -/
theorem buildRequest_error_cases {V P : Type} (w : World V) (c : Client)
    (marshal : P → Except String String) (method path : String) (p : Option P)
    (extraHeaders : List (String × String)) (e : GoError)
    (h : Client.buildRequest w c marshal method path p extraHeaders = .error e) :
    (∃ cause, jsonMarshal marshal p = .error cause) ∨
    validMethod (if method = "" then "GET" else method) = false ∨
    (∃ cause, w.urlParse (c.endpoint ++ path) = some cause) := by
  unfold Client.buildRequest at h
  cases hm : jsonMarshal marshal p with
  | error cause => exact Or.inl ⟨cause, rfl⟩
  | ok params =>
    right
    by_cases hv : validMethod (if method = "" then "GET" else method) = true
    · right
      cases hu : w.urlParse (c.endpoint ++ path) with
      | some cause => exact ⟨cause, rfl⟩
      | none =>
        exfalso
        simp [hm, NewRequest, hv, hu] at h
    · left
      simpa using hv

/-- C4, as far as the source goes. When the server answers a built request with a status in
[200,299], `Client.ask` returns the nil error and the response header, and the recipient
is what decoding the body made of it (whether or not that decoding failed). The error
is non-nil exactly when encoding the body fails, the request cannot be created (the
method is not a token or the URL does not parse), the transport fails, or the status is
outside [200,299]. -/
theorem ask_result {V P R : Type} (w : World V) (c : Client) (log : List Request)
    (marshal : P → Except String String) (method path : String) (p : Option P)
    (decode : String → R → R) (recipient : R) :
    (∀ req resp, Client.buildRequest w c marshal method path p [] = .ok req →
      w.send log req = .ok resp → 200 ≤ resp.StatusCode → resp.StatusCode ≤ 299 →
      (Client.ask w c log marshal method path p decode recipient).err = none ∧
      (Client.ask w c log marshal method path p decode recipient).header = some resp.Header ∧
      (Client.ask w c log marshal method path p decode recipient).recipient =
        decode resp.Body recipient) ∧
    ((Client.ask w c log marshal method path p decode recipient).err ≠ none ↔
      ((∃ cause, jsonMarshal marshal p = .error cause) ∨
       (validMethod (if method = "" then "GET" else method) = false ∨
          ∃ cause, w.urlParse (c.endpoint ++ path) = some cause) ∨
       (∃ req resp cause, Client.buildRequest w c marshal method path p [] = .ok req ∧
          w.send log req = .fail resp cause) ∨
       (∃ req resp, Client.buildRequest w c marshal method path p [] = .ok req ∧
          w.send log req = .ok resp ∧ (resp.StatusCode < 200 ∨ resp.StatusCode > 299)))) := by
  constructor
  · intro req resp hreq hsend h1 h2
    have hstatus : ¬ (resp.StatusCode < 200 ∨ resp.StatusCode > 299) := by omega
    have hdo : Client.do w c log marshal method path p [] = (.ok resp, log ++ [req]) := by
      unfold Client.do
      simp only [hreq, hsend, if_neg hstatus]
    unfold Client.ask
    rw [hdo]
    exact ⟨rfl, rfl, rfl⟩
  · rw [ask_err_eq, ne_eq, do_err_eq_none_iff]
    constructor
    · intro h
      cases hreq : Client.buildRequest w c marshal method path p [] with
      | error e =>
        rcases buildRequest_error_cases w c marshal method path p [] e hreq with h1 | h1 | h1
        · exact Or.inl h1
        · exact Or.inr (Or.inl (Or.inl h1))
        · exact Or.inr (Or.inl (Or.inr h1))
      | ok req =>
        cases hsend : w.send log req with
        | fail resp cause => exact Or.inr (Or.inr (Or.inl ⟨req, resp, cause, rfl, hsend⟩))
        | ok resp =>
          refine Or.inr (Or.inr (Or.inr ⟨req, resp, rfl, hsend, ?_⟩))
          by_contra hs
          exact h ⟨req, resp, hreq, hsend, by omega, by omega⟩
    · rintro h ⟨req, resp, hreq, hsend, h1, h2⟩
      rcases h with ⟨cause, hm⟩ | hv | ⟨req1, resp1, cause, hreq1, hsend1⟩ |
          ⟨req1, resp1, hreq1, hsend1, hs⟩
      · unfold Client.buildRequest at hreq
        simp [hm] at hreq
      · have hok : ∃ params, jsonMarshal marshal p = .ok params := by
          cases hm : jsonMarshal marshal p with
          | error cause =>
            unfold Client.buildRequest at hreq
            simp [hm] at hreq
          | ok params => exact ⟨params, rfl⟩
        obtain ⟨params, hm⟩ := hok
        unfold Client.buildRequest at hreq
        simp only [hm] at hreq
        split at hreq
        · simp at hreq
        · rename_i req0 hnew
          have h3 := NewRequest_ok _ _ _ _ _ hnew
          rcases hv with hv | ⟨cause, hv⟩
          · rw [h3.2.1] at hv
            exact absurd hv (by decide)
          · rw [String.append_empty] at h3
            rw [h3.2.2] at hv
            exact absurd hv (by simp)
      · rw [hreq] at hreq1
        injection hreq1 with hreq1
        subst hreq1
        rw [hsend] at hsend1
        exact absurd hsend1 (by simp)
      · rw [hreq] at hreq1
        injection hreq1 with hreq1
        subst hreq1
        rw [hsend] at hsend1
        injection hsend1 with hsend1
        subst hsend1
        omega

/-- C4 at concrete calls: a 200 answer whose body is not JSON gives the nil error, the
header, and the recipient as it was; a 404 answer gives a non-nil error. -/
theorem ask_result_witness :
    ((Client.ask (scripted [⟨200, [("X-Request-Id", "7")], "not json"⟩]) demoClient []
        marshalNil "GET" "Balance" none (Decode (storeStruct BalanceResponse.setField))
        { Balance := 5 }).err = none ∧
     (Client.ask (scripted [⟨200, [("X-Request-Id", "7")], "not json"⟩]) demoClient []
        marshalNil "GET" "Balance" none (Decode (storeStruct BalanceResponse.setField))
        { Balance := 5 }).header = some [("X-Request-Id", "7")] ∧
     (Client.ask (scripted [⟨200, [("X-Request-Id", "7")], "not json"⟩]) demoClient []
        marshalNil "GET" "Balance" none (Decode (storeStruct BalanceResponse.setField))
        { Balance := 5 }).recipient = { Balance := 5 }) ∧
    (Client.ask (scripted [⟨404, [], ""⟩]) demoClient [] marshalNil "GET" "Balance" none
        (Decode (storeStruct BalanceResponse.setField)) {}).err ≠ none :=
  ⟨(ask_result (scripted [⟨200, [("X-Request-Id", "7")], "not json"⟩]) demoClient []
      marshalNil "GET" "Balance" none (Decode (storeStruct BalanceResponse.setField))
      { Balance := 5 }).1
      ⟨"GET", "https://rest.mymobileapi.com/v1/Balance",
        [("Authorization", "Bearer t"), ("Content-Type", "application/json")], none⟩
      ⟨200, [("X-Request-Id", "7")], "not json"⟩ rfl rfl (by decide) (by decide),
   (ask_result (scripted [⟨404, [], ""⟩]) demoClient [] marshalNil "GET" "Balance" none
      (Decode (storeStruct BalanceResponse.setField)) {}).2.mpr
      (Or.inr (Or.inr (Or.inr ⟨⟨"GET", "https://rest.mymobileapi.com/v1/Balance",
        [("Authorization", "Bearer t"), ("Content-Type", "application/json")], none⟩,
        ⟨404, [], ""⟩, rfl, rfl, by decide⟩)))⟩

/-- C4 as stated fails: `Client.ask` with the method "BAD METHOD" (a space is not a token
character) returns the error of `http.NewRequest`, although encoding the nil body did
not fail and no request reached the transport, so that neither the transport failed nor
a status outside [200,299] came back. -/
theorem ask_error_from_NewRequest :
    ¬ ((Client.ask (scripted [⟨200, [], "\x7b\x7d"⟩]) demoClient [] marshalNil "BAD METHOD"
          "Balance" none (fun _ (r : Unit) => r) ()).err ≠ none ↔
        ((∃ cause, jsonMarshal marshalNil none = .error cause) ∨
         (∃ req resp cause,
            Client.buildRequest (scripted [⟨200, [], "\x7b\x7d"⟩]) demoClient marshalNil
              "BAD METHOD" "Balance" none [] = .ok req ∧
            (scripted [⟨200, [], "\x7b\x7d"⟩]).send [] req = .fail resp cause) ∨
         (∃ req resp,
            Client.buildRequest (scripted [⟨200, [], "\x7b\x7d"⟩]) demoClient marshalNil
              "BAD METHOD" "Balance" none [] = .ok req ∧
            (scripted [⟨200, [], "\x7b\x7d"⟩]).send [] req = .ok resp ∧
            (resp.StatusCode < 200 ∨ resp.StatusCode > 299)))) := by
  intro h
  have herr : (Client.ask (scripted [⟨200, [], "\x7b\x7d"⟩]) demoClient [] marshalNil
      "BAD METHOD" "Balance" none (fun _ (r : Unit) => r) ()).err ≠ none := by decide
  have hb : Client.buildRequest (scripted [⟨200, [], "\x7b\x7d"⟩]) demoClient marshalNil
      "BAD METHOD" "Balance" none [] = .error (.invalidMethod "BAD METHOD") := rfl
  rcases h.mp herr with ⟨cause, hm⟩ | ⟨req, resp, cause, hreq, _⟩ | ⟨req, resp, hreq, _⟩
  · exact absurd hm (by simp [jsonMarshal])
  · rw [hb] at hreq
    exact absurd hreq (by simp)
  · rw [hb] at hreq
    exact absurd hreq (by simp)

/-- `Client.ask` after a failing `Client.do`. -/
theorem ask_of_do_fail {V P R : Type} (w : World V) (c : Client) (log : List Request)
    (marshal : P → Except String String) (method path : String) (p : Option P)
    (decode : String → R → R) (recipient : R) (resp : Option Response) (e : GoError)
    (log1 : List Request)
    (hdo : Client.do w c log marshal method path p [] = (.fail resp e, log1)) :
    Client.ask w c log marshal method path p decode recipient =
      { header := none, err := some e, recipient := recipient, log := log1 } := by
  unfold Client.ask
  rw [hdo]

/-- `Client.ask` after a successful `Client.do`. -/
theorem ask_of_do_ok {V P R : Type} (w : World V) (c : Client) (log : List Request)
    (marshal : P → Except String String) (method path : String) (p : Option P)
    (decode : String → R → R) (recipient : R) (resp : Response) (log1 : List Request)
    (hdo : Client.do w c log marshal method path p [] = (.ok resp, log1)) :
    Client.ask w c log marshal method path p decode recipient =
      { header := some resp.Header, err := none, recipient := decode resp.Body recipient,
        log := log1 } := by
  unfold Client.ask
  rw [hdo]

/-- The first request of `NewClient`, when its URL parses. -/
theorem buildRequest_NewClient {V : Type} (w : World V) (clientID clientSecret : String)
    (debug : Bool)
    (hurl : w.urlParse "https://rest.mymobileapi.com/v1/Authentication" = none) :
    Client.buildRequest w
      { authorization := "BASIC " ++ EncodeToString (clientID ++ ":" ++ clientSecret),
        authToken := "", AuthTokenExpiry := 0, debug := debug,
        endpoint := "https://rest.mymobileapi.com/v1/" }
      marshalNil "GET" "Authentication" none [] =
      .ok (authenticationRequest clientID clientSecret) := by
  have hcat : "https://rest.mymobileapi.com/v1/" ++ "Authentication" =
      "https://rest.mymobileapi.com/v1/Authentication" := by decide
  rw [buildRequest_eq w _ marshalNil "GET" "Authentication" none "null" rfl (by decide)
    (by decide) (by rw [hcat]; exact hurl)]
  simp only [hcat, if_true]
  rfl

/-- C5, as far as the source goes. If the Authentication exchange of `NewClient` fails
because the transport fails or because the status is outside [200,299], `NewClient`
returns the nil client and a non-nil error (the transport error, or an error made from
the response); no client, and so no token, comes into being. -/
theorem NewClient_fails_with_exchange {V : Type} (w : World V)
    (clientID clientSecret : String) (debug : Bool) (now : Time)
    (hurl : w.urlParse "https://rest.mymobileapi.com/v1/Authentication" = none) :
    (∀ resp, w.send [] (authenticationRequest clientID clientSecret) = .ok resp →
      resp.StatusCode < 200 ∨ resp.StatusCode > 299 →
      ∃ text, NewClient w clientID clientSecret debug now =
        (none, some (.errorf text), [authenticationRequest clientID clientSecret])) ∧
    (∀ resp cause, w.send [] (authenticationRequest clientID clientSecret) = .fail resp cause →
      NewClient w clientID clientSecret debug now =
        (none, some (.transport cause), [authenticationRequest clientID clientSecret])) := by
  have hb := buildRequest_NewClient w clientID clientSecret debug hurl
  constructor
  · intro resp hsend hstatus
    obtain ⟨text, ht⟩ := do_of_status_bad _ _ _ _ _ _ _ _ _ resp hb hsend hstatus
    refine ⟨text, ?_⟩
    unfold NewClient Client.Authenticate Client.get
    simp only [ask_of_do_fail _ _ _ _ _ _ _ _ _ _ _ _ ht]
    rfl
  · intro resp cause hsend
    have ht := do_of_send_fail _ _ _ _ _ _ _ _ _ resp cause hb hsend
    unfold NewClient Client.Authenticate Client.get
    simp only [ask_of_do_fail _ _ _ _ _ _ _ _ _ _ _ _ ht]
    rfl

/-- C5 at concrete exchanges: the server answers 401, and the transport fails. -/
theorem NewClient_fails_with_exchange_witness :
    (∃ text, NewClient (scripted [⟨401, [], "\x7b\"message\":\"bad credentials\"\x7d"⟩])
      "id" "secret" false 1000 =
        (none, some (.errorf text), [authenticationRequest "id" "secret"])) ∧
    NewClient (scripted []) "id" "secret" false 1000 =
      (none, some (.transport "EOF"), [authenticationRequest "id" "secret"]) :=
  ⟨(NewClient_fails_with_exchange
      (scripted [⟨401, [], "\x7b\"message\":\"bad credentials\"\x7d"⟩])
      "id" "secret" false 1000 rfl).1 ⟨401, [], "\x7b\"message\":\"bad credentials\"\x7d"⟩
      rfl (by decide),
   (NewClient_fails_with_exchange (scripted []) "id" "secret" false 1000 rfl).2 none "EOF" rfl⟩

/-- C5 as stated fails: the server answers 200 with the body "oops", which holds no JSON
value; `NewClient` still returns a client and the nil error, and the token stored is
"Bearer " followed by nothing. -/
theorem NewClient_accepts_malformed_body :
    readValue "oops" = none ∧
    NewClient (scripted [⟨200, [], "oops"⟩]) "id" "secret" false 1000 =
      (some { authorization := "BASIC aWQ6c2VjcmV0", authToken := "Bearer ",
              AuthTokenExpiry := 1000, debug := false,
              endpoint := "https://rest.mymobileapi.com/v1/" },
        none, [authenticationRequest "id" "secret"]) :=
  ⟨rfl, by decide⟩

/-- What a request built by `Client.ask` looks like. -/
theorem buildRequest_ok_inv {V P : Type} (w : World V) (c : Client)
    (marshal : P → Except String String) (method path : String) (p : Option P) (req : Request)
    (hreq : Client.buildRequest w c marshal method path p [] = .ok req) :
    w.urlParse (c.endpoint ++ path) = none ∧
    req.URL = c.endpoint ++ path ∧
    req.Header = [("Authorization", if c.authToken = "" then c.authorization else c.authToken),
                  ("Content-Type", "application/json")] := by
  unfold Client.buildRequest at hreq
  cases hm : jsonMarshal marshal p with
  | error cause => simp [hm] at hreq
  | ok params =>
    simp only [hm] at hreq
    split at hreq
    · simp at hreq
    · rename_i req0 hnew
      injection hreq with hreq
      have h3 := NewRequest_ok _ _ _ _ _ hnew
      rw [String.append_empty] at h3
      refine ⟨h3.2.2, ?_, ?_⟩
      · rw [← hreq, h3.1]
        simp only [List.foldl_nil]
        split <;> rfl
      · rw [← hreq, h3.1]
        simp only [List.foldl_nil, Header.Add, canonical_Authorization, canonical_ContentType,
          List.nil_append]
        split <;> rfl

/-- The log after `Client.do`: unchanged, or longer by the request that was built. -/
theorem do_log {V P : Type} (w : World V) (c : Client) (log : List Request)
    (marshal : P → Except String String) (method path : String) (p : Option P)
    (extraHeaders : List (String × String)) :
    (Client.do w c log marshal method path p extraHeaders).2 = log ∨
    ∃ req, Client.buildRequest w c marshal method path p extraHeaders = .ok req ∧
      (Client.do w c log marshal method path p extraHeaders).2 = log ++ [req] := by
  cases hreq : Client.buildRequest w c marshal method path p extraHeaders with
  | error e =>
    rw [do_of_build_error _ _ _ _ _ _ _ _ e hreq]
    exact Or.inl rfl
  | ok req =>
    right
    refine ⟨req, rfl, ?_⟩
    cases hsend : w.send log req with
    | fail resp cause => rw [do_of_send_fail _ _ _ _ _ _ _ _ req resp cause hreq hsend]
    | ok resp =>
      by_cases hstatus : resp.StatusCode < 200 ∨ resp.StatusCode > 299
      · obtain ⟨text, ht⟩ := do_of_status_bad _ _ _ _ _ _ _ _ req resp hreq hsend hstatus
        rw [ht]
      · rw [do_of_status_ok _ _ _ _ _ _ _ _ req resp hreq hsend (by omega) (by omega)]

/-- The log after `Client.ask` is the log after `Client.do`. -/
theorem ask_log {V P R : Type} (w : World V) (c : Client) (log : List Request)
    (marshal : P → Except String String) (method path : String) (p : Option P)
    (decode : String → R → R) (recipient : R) :
    (Client.ask w c log marshal method path p decode recipient).log =
      (Client.do w c log marshal method path p []).2 := by
  unfold Client.ask
  split <;> rename_i h <;> rw [h]

/-- The values stored under `Authorization` in a request built by `Client.ask`. -/
theorem values_Authorization (x : String) :
    Header.Values [("Authorization", x), ("Content-Type", "application/json")] "Authorization" =
      [x] := by
  simp [Header.Values, canonical_Authorization]

/-- A token that starts with "Bearer " is not empty. -/
theorem bearer_ne_empty (t : String) : "Bearer " ++ t ≠ "" := by
  intro h
  have := congrArg String.length h
  simp at this
  exact absurd this.1 (by decide)

/-- Every request that `Client.ask` sends for a client holding the token `Bearer t`
carries that token as its `Authorization` value. -/
theorem ask_log_bearer {V P R : Type} (w : World V) (c : Client) (log : List Request)
    (marshal : P → Except String String) (method path : String) (p : Option P)
    (decode : String → R → R) (recipient : R) (t : String)
    (htok : c.authToken = "Bearer " ++ t) :
    (Client.ask w c log marshal method path p decode recipient).log = log ∨
    ∃ req, (Client.ask w c log marshal method path p decode recipient).log = log ++ [req] ∧
      req.URL = c.endpoint ++ path ∧
      req.Header.Values "Authorization" = ["Bearer " ++ t] := by
  rw [ask_log]
  rcases do_log w c log marshal method path p [] with h | ⟨req, hreq, h⟩
  · exact Or.inl h
  · right
    refine ⟨req, h, (buildRequest_ok_inv _ _ _ _ _ _ _ hreq).2.1, ?_⟩
    rw [(buildRequest_ok_inv _ _ _ _ _ _ _ hreq).2.2, htok, if_neg (bearer_ne_empty t),
      values_Authorization]

/-- `Authenticate` after a failing exchange. -/
theorem Authenticate_of_do_fail {V : Type} (w : World V) (c : Client) (log : List Request)
    (now : Time) (resp : Option Response) (e : GoError) (log1 : List Request)
    (hdo : Client.do w c log marshalNil "GET" "Authentication" none [] = (.fail resp e, log1)) :
    Client.Authenticate w c log now = { err := some e, client := c, log := log1 } := by
  unfold Client.Authenticate Client.get
  simp only [ask_of_do_fail _ _ _ _ _ _ _ _ _ _ _ _ hdo]

/-- `Authenticate` after a successful exchange: the outcome depends on the duration. -/
theorem Authenticate_of_do_ok {V : Type} (w : World V) (c : Client) (log : List Request)
    (now : Time) (resp : Response) (log1 : List Request)
    (hdo : Client.do w c log marshalNil "GET" "Authentication" none [] = (.ok resp, log1)) :
    Client.Authenticate w c log now =
      match ParseDuration (formatInt
        (Decode (storeStruct AuthResponse.setField) resp.Body {}).ExpiresInMinutes ++ "m") with
      | .error e => { err := some e, client := c, log := log1 }
      | .ok duration =>
        { err := none,
          client := { c with AuthTokenExpiry := now + duration,
                             authToken := "Bearer " ++
                               (Decode (storeStruct AuthResponse.setField) resp.Body {}).Token },
          log := log1 } := by
  unfold Client.Authenticate Client.get
  simp only [ask_of_do_ok _ _ _ _ _ _ _ _ _ _ _ hdo]

/-- `Authenticate` keeps the credential value and the endpoint, and the token afterwards is
the old one or starts with "Bearer ". -/
theorem Authenticate_client {V : Type} (w : World V) (c : Client) (log : List Request)
    (now : Time) :
    (Client.Authenticate w c log now).client.authorization = c.authorization ∧
    (Client.Authenticate w c log now).client.endpoint = c.endpoint ∧
    ((Client.Authenticate w c log now).client.authToken = c.authToken ∨
      ∃ t, (Client.Authenticate w c log now).client.authToken = "Bearer " ++ t) := by
  cases hdo : Client.do w c log marshalNil "GET" "Authentication" none [] with
  | mk r log1 =>
    cases r with
    | fail resp e =>
      rw [Authenticate_of_do_fail w c log now resp e log1 hdo]
      exact ⟨rfl, rfl, Or.inl rfl⟩
    | ok resp =>
      rw [Authenticate_of_do_ok w c log now resp log1 hdo]
      split
      · exact ⟨rfl, rfl, Or.inl rfl⟩
      · exact ⟨rfl, rfl, Or.inr ⟨_, rfl⟩⟩

/-- The log after `Authenticate` is the log after its `Client.ask`. -/
theorem Authenticate_log {V : Type} (w : World V) (c : Client) (log : List Request)
    (now : Time) :
    (Client.Authenticate w c log now).log =
      (Client.ask w c log marshalNil "GET" "Authentication" none
        (Decode (storeStruct AuthResponse.setField)) {}).log := by
  rw [ask_log]
  cases hdo : Client.do w c log marshalNil "GET" "Authentication" none [] with
  | mk r log1 =>
    cases r with
    | fail resp e => rw [Authenticate_of_do_fail w c log now resp e log1 hdo]
    | ok resp =>
      rw [Authenticate_of_do_ok w c log now resp log1 hdo]
      split <;> rfl

/-- One call on a client that holds a token starting with "Bearer ": the credential value
and the endpoint stay, the client still holds such a token, and the log is unchanged or
longer by one request, to the path of the call, that carries the token held when the
call is made. -/
theorem step_bearer {V : Type} (w : World V) (c : Client) (log : List Request) (op : Op V)
    (t : String) (htok : c.authToken = "Bearer " ++ t) :
    (Op.step w (c, log) op).1.authorization = c.authorization ∧
    (Op.step w (c, log) op).1.endpoint = c.endpoint ∧
    (∃ t1, (Op.step w (c, log) op).1.authToken = "Bearer " ++ t1) ∧
    ((Op.step w (c, log) op).2 = log ∨
      ∃ req, (Op.step w (c, log) op).2 = log ++ [req] ∧
        req.URL = c.endpoint ++ op.path ∧
        req.Header.Values "Authorization" = [c.authToken]) := by
  cases op with
  | Authenticate now =>
    refine ⟨(Authenticate_client w c log now).1, (Authenticate_client w c log now).2.1, ?_, ?_⟩
    · rcases (Authenticate_client w c log now).2.2 with h | h
      · exact ⟨t, by show (Client.Authenticate w c log now).client.authToken = _; rw [h, htok]⟩
      · exact h
    · have hlog : (Op.step w (c, log) (Op.Authenticate now)).2 =
          (Client.ask w c log marshalNil "GET" "Authentication" none
            (Decode (storeStruct AuthResponse.setField)) {}).log := by
        show (Client.Authenticate w c log now).log = _
        rw [Authenticate_log]
      rw [hlog]
      rcases ask_log_bearer w c log marshalNil "GET" "Authentication" none
        (Decode (storeStruct AuthResponse.setField)) {} t htok with h | ⟨req, h1, h2, h3⟩
      · exact Or.inl h
      · exact Or.inr ⟨req, h1, h2, by rw [h3, htok]⟩
  | GetBalance =>
    refine ⟨rfl, rfl, ⟨t, htok⟩, ?_⟩
    have hlog : (Op.step w (c, log) Op.GetBalance).2 =
        (Client.ask w c log marshalNil "GET" "Balance" none
          (Decode (storeStruct BalanceResponse.setField)) {}).log := by
      show (Client.GetBalance w c log).2.2 = _
      unfold Client.GetBalance Client.get
      dsimp only
      split <;> rfl
    rw [hlog]
    rcases ask_log_bearer w c log marshalNil "GET" "Balance" none
      (Decode (storeStruct BalanceResponse.setField)) {} t htok with h | ⟨req, h1, h2, h3⟩
    · exact Or.inl h
    · exact Or.inr ⟨req, h1, h2, by rw [h3, htok]⟩
  | SendBulkMessages data =>
    refine ⟨rfl, rfl, ⟨t, htok⟩, ?_⟩
    rcases ask_log_bearer w c log w.marshalBulk "POST" "BulkMessages" (some data)
      (Decode (storeStruct BulkMessageResponse.setField)) {} t htok with h | ⟨req, h1, h2, h3⟩
    · exact Or.inl h
    · exact Or.inr ⟨req, h1, h2, by rw [h3, htok]⟩
  | SendGroupMessages data =>
    refine ⟨rfl, rfl, ⟨t, htok⟩, ?_⟩
    rcases ask_log_bearer w c log w.marshalGroup "POST" "GroupMessages" (some data)
      (Decode (storeStruct BulkMessageResponse.setField)) {} t htok with h | ⟨req, h1, h2, h3⟩
    · exact Or.inl h
    · exact Or.inr ⟨req, h1, h2, by rw [h3, htok]⟩

/-- A sequence of calls followed by one more call. -/
theorem run_append_one {V : Type} (w : World V) (s : Client × List Request)
    (ops : List (Op V)) (op : Op V) :
    run w s (ops ++ [op]) = Op.step w (run w s ops) op := by
  simp [run, List.foldl_append]

/-- A sequence of calls on a client that holds a token starting with "Bearer ": the
credential value and the endpoint stay, the client still holds such a token, and the
log grows by requests each of which was sent by one call of the sequence, to the path
of that call, with the token that the client held when that call was made. -/
theorem run_bearer {V : Type} (w : World V) (ops : List (Op V)) (c : Client)
    (log : List Request) (t : String) (htok : c.authToken = "Bearer " ++ t) :
    (run w (c, log) ops).1.authorization = c.authorization ∧
    (run w (c, log) ops).1.endpoint = c.endpoint ∧
    (∃ t1, (run w (c, log) ops).1.authToken = "Bearer " ++ t1) ∧
    ∃ sent, (run w (c, log) ops).2 = log ++ sent ∧
      ∀ r ∈ sent, ∃ ops1 op ops2, ops = ops1 ++ op :: ops2 ∧
        r.URL = c.endpoint ++ op.path ∧
        r.Header.Values "Authorization" = [(run w (c, log) ops1).1.authToken] ∧
        ∃ t1, (run w (c, log) ops1).1.authToken = "Bearer " ++ t1 := by
  induction ops using List.reverseRecOn with
  | nil => exact ⟨rfl, rfl, ⟨t, htok⟩, [], by simp [run], by simp⟩
  | append_singleton ops op ih =>
    obtain ⟨ha, he, ⟨t1, ht1⟩, sent, hs, hall⟩ := ih
    obtain ⟨ga, ge, gt, glog⟩ :=
      step_bearer w (run w (c, log) ops).1 (run w (c, log) ops).2 op t1 ht1
    rw [run_append_one]
    have hall1 : ∀ r ∈ sent, ∃ ops1 op1 ops2, ops ++ [op] = ops1 ++ op1 :: ops2 ∧
        r.URL = c.endpoint ++ op1.path ∧
        r.Header.Values "Authorization" = [(run w (c, log) ops1).1.authToken] ∧
        ∃ t2, (run w (c, log) ops1).1.authToken = "Bearer " ++ t2 := by
      intro r hr
      obtain ⟨ops1, op1, ops2, h1, h2, h3, h4⟩ := hall r hr
      exact ⟨ops1, op1, ops2 ++ [op], by rw [h1]; simp, h2, h3, h4⟩
    refine ⟨by rw [← ha]; exact ga, by rw [← he]; exact ge, gt, ?_⟩
    rcases glog with h | ⟨req, h1, h2, h3⟩
    · exact ⟨sent, by rw [← hs]; exact h, hall1⟩
    · refine ⟨sent ++ [req], by rw [← List.append_assoc, ← hs]; exact h1, ?_⟩
      intro r hr
      rcases List.mem_append.mp hr with hr | hr
      · exact hall1 r hr
      · rw [List.mem_singleton.mp hr]
        exact ⟨ops, op, [], rfl, by rw [h2, he], h3, ⟨t1, ht1⟩⟩

/-- A successful `Client.do` has sent exactly the request it built. -/
theorem do_ok_inv {V P : Type} (w : World V) (c : Client) (log : List Request)
    (marshal : P → Except String String) (method path : String) (p : Option P)
    (extraHeaders : List (String × String)) (resp : Response) (log1 : List Request)
    (hdo : Client.do w c log marshal method path p extraHeaders = (.ok resp, log1)) :
    ∃ req, Client.buildRequest w c marshal method path p extraHeaders = .ok req ∧
      w.send log req = .ok resp ∧ 200 ≤ resp.StatusCode ∧ resp.StatusCode ≤ 299 ∧
      log1 = log ++ [req] := by
  have hnone : (Client.do w c log marshal method path p extraHeaders).1.err = none := by
    rw [hdo]
    rfl
  obtain ⟨req, resp1, hreq, hsend, h1, h2⟩ := (do_err_eq_none_iff _ _ _ _ _ _ _ _).mp hnone
  have h3 := do_of_status_ok _ _ _ _ _ _ _ _ req resp1 hreq hsend h1 h2
  rw [hdo] at h3
  injection h3 with h3 h4
  injection h3 with h3
  subst h3
  exact ⟨req, hreq, hsend, h1, h2, h4⟩

/-- What a successful `NewClient` leaves: one request, the Authentication request with
the BASIC value, was sent, and the client holds the credential value, the endpoint and
a token that starts with "Bearer ". -/
theorem NewClient_ok_inv {V : Type} (w : World V) (clientID clientSecret : String)
    (debug : Bool) (now : Time) (c : Client) (e : Option GoError) (log0 : List Request)
    (hnew : NewClient w clientID clientSecret debug now = (some c, e, log0)) :
    log0 = [authenticationRequest clientID clientSecret] ∧
    c.authorization = "BASIC " ++ EncodeToString (clientID ++ ":" ++ clientSecret) ∧
    c.endpoint = "https://rest.mymobileapi.com/v1/" ∧
    ∃ t, c.authToken = "Bearer " ++ t := by
  have hcat : "https://rest.mymobileapi.com/v1/" ++ "Authentication" =
      "https://rest.mymobileapi.com/v1/Authentication" := by decide
  unfold NewClient at hnew
  dsimp only at hnew
  cases hdo : Client.do w
      { authorization := "BASIC " ++ EncodeToString (clientID ++ ":" ++ clientSecret),
        authToken := "", AuthTokenExpiry := 0, debug := debug,
        endpoint := "https://rest.mymobileapi.com/v1/" }
      [] marshalNil "GET" "Authentication" none [] with
  | mk r log1 =>
    cases r with
    | fail resp err =>
      rw [Authenticate_of_do_fail _ _ _ now resp err log1 hdo] at hnew
      simp at hnew
    | ok resp =>
      obtain ⟨req, hreq, -, -, -, hlog⟩ := do_ok_inv _ _ _ _ _ _ _ _ resp log1 hdo
      have hurl := (buildRequest_ok_inv _ _ _ _ _ _ _ hreq).1
      rw [hcat] at hurl
      rw [buildRequest_NewClient w clientID clientSecret debug hurl] at hreq
      injection hreq with hreq
      rw [Authenticate_of_do_ok _ _ _ now resp log1 hdo] at hnew
      generalize ParseDuration (formatInt
        (Decode (storeStruct AuthResponse.setField) resp.Body {}).ExpiresInMinutes ++ "m") = pd
        at hnew
      cases pd with
      | error err => simp at hnew
      | ok duration =>
        simp only [Prod.mk.injEq, Option.some.injEq] at hnew
        obtain ⟨hc, -, hl⟩ := hnew
        subst hc
        refine ⟨?_, rfl, rfl, ⟨_, rfl⟩⟩
        rw [← hl, hlog, ← hreq]
        rfl

/-- C8, as far as the source goes. `Client.do` chooses the `Authorization` value by the
stored token, not by the path: every request it hands to the HTTP client carries the
credential value while `authToken` is empty and the stored `authToken` otherwise. After a successful
`NewClient` and any sequence of `Authenticate`, `GetBalance`, `SendBulkMessages` and
`SendGroupMessages`: the client holds a non-empty token of the form `Bearer token`;
the first request sent is the Authentication request of `NewClient` and carries
`BASIC base64(id:secret)`; every later request was sent by one call of the sequence,
goes to the path of that call (Authentication included), and carries exactly the
token that the client held when that call was made; in particular every request to a
URL other than the Authentication URL carries a value `Bearer token`. -/
theorem run_authorization {V : Type} (w : World V) (clientID clientSecret : String)
    (debug : Bool) (now : Time) (c : Client) (log0 : List Request)
    (hnew : NewClient w clientID clientSecret debug now = (some c, none, log0))
    (ops : List (Op V)) :
    (∀ (P : Type) (c1 : Client) (log1 : List Request) (marshal : P → Except String String)
        (method path : String) (p : Option P),
      (Client.do w c1 log1 marshal method path p []).2 = log1 ∨
      ∃ req, (Client.do w c1 log1 marshal method path p []).2 = log1 ++ [req] ∧
        req.Header.Values "Authorization" =
          [if c1.authToken = "" then c1.authorization else c1.authToken]) ∧
    (run w (c, log0) ops).1.authToken ≠ "" ∧
    (∃ t, (run w (c, log0) ops).1.authToken = "Bearer " ++ t) ∧
    ∃ sent, (run w (c, log0) ops).2 = authenticationRequest clientID clientSecret :: sent ∧
      (authenticationRequest clientID clientSecret).URL =
        "https://rest.mymobileapi.com/v1/Authentication" ∧
      (authenticationRequest clientID clientSecret).Header.Values "Authorization" =
        ["BASIC " ++ EncodeToString (clientID ++ ":" ++ clientSecret)] ∧
      (∀ r ∈ sent, ∃ ops1 op ops2, ops = ops1 ++ op :: ops2 ∧
        r.URL = "https://rest.mymobileapi.com/v1/" ++ op.path ∧
        r.Header.Values "Authorization" = [(run w (c, log0) ops1).1.authToken] ∧
        ∃ t, (run w (c, log0) ops1).1.authToken = "Bearer " ++ t) ∧
      (∀ r ∈ sent, ∃ t, r.Header.Values "Authorization" = ["Bearer " ++ t]) ∧
      (∀ r ∈ (run w (c, log0) ops).2,
        r.URL ≠ "https://rest.mymobileapi.com/v1/Authentication" →
        ∃ t, r.Header.Values "Authorization" = ["Bearer " ++ t]) := by
  obtain ⟨hlog, -, hend, t, htok⟩ :=
    NewClient_ok_inv w clientID clientSecret debug now c none log0 hnew
  obtain ⟨-, -, ⟨t1, ht1⟩, sent, hs, hall⟩ := run_bearer w ops c log0 t htok
  have hsome : ∀ r ∈ sent, ∃ t2, r.Header.Values "Authorization" = ["Bearer " ++ t2] := by
    intro r hr
    obtain ⟨ops1, op, ops2, -, -, h3, t2, h4⟩ := hall r hr
    exact ⟨t2, by rw [h3, h4]⟩
  refine ⟨?_, by rw [ht1]; exact bearer_ne_empty t1, ⟨t1, ht1⟩, sent, by rw [hs, hlog]; rfl,
    rfl, values_Authorization _, ?_, hsome, ?_⟩
  · intro P c1 log1 marshal method path p
    rcases do_log w c1 log1 marshal method path p [] with h | ⟨req, hreq, h⟩
    · exact Or.inl h
    · exact Or.inr ⟨req, h, by
        rw [(buildRequest_ok_inv _ _ _ _ _ _ _ hreq).2.2, values_Authorization]⟩
  · intro r hr
    obtain ⟨ops1, op, ops2, h1, h2, h3, h4⟩ := hall r hr
    exact ⟨ops1, op, ops2, h1, by rw [h2, hend], h3, h4⟩
  · intro r hr hne
    rw [hs, hlog] at hr
    rcases List.mem_append.mp hr with hr | hr
    · rw [List.mem_singleton.mp hr] at hne
      exact absurd rfl hne
    · exact hsome r hr

/-- C8 at a concrete run: construction with the token `t`, a balance query, a second
`Authenticate` that brings the token `u`, and another balance query. The requests sent
carry, in this order, the BASIC value, `Bearer t`, `Bearer t` (the second
authentication), and `Bearer u`. -/
theorem run_authorization_witness :
    (run (scripted [⟨200, [], "\x7b\"token\":\"t\",\"expiresInMinutes\":1\x7d"⟩,
          ⟨200, [], "\x7b\"balance\": 4200\x7d"⟩,
          ⟨200, [], "\x7b\"token\":\"u\",\"expiresInMinutes\":1\x7d"⟩,
          ⟨200, [], "\x7b\"balance\": 4100\x7d"⟩])
        (demoClient, [authenticationRequest "id" "secret"])
        [Op.GetBalance, Op.Authenticate 2000, Op.GetBalance]).1.authToken ≠ "" ∧
    ((run (scripted [⟨200, [], "\x7b\"token\":\"t\",\"expiresInMinutes\":1\x7d"⟩,
          ⟨200, [], "\x7b\"balance\": 4200\x7d"⟩,
          ⟨200, [], "\x7b\"token\":\"u\",\"expiresInMinutes\":1\x7d"⟩,
          ⟨200, [], "\x7b\"balance\": 4100\x7d"⟩])
        (demoClient, [authenticationRequest "id" "secret"])
        [Op.GetBalance, Op.Authenticate 2000, Op.GetBalance]).2.map
      (fun r => (r.URL, r.Header.Values "Authorization"))) =
      [("https://rest.mymobileapi.com/v1/Authentication", ["BASIC aWQ6c2VjcmV0"]),
       ("https://rest.mymobileapi.com/v1/Balance", ["Bearer t"]),
       ("https://rest.mymobileapi.com/v1/Authentication", ["Bearer t"]),
       ("https://rest.mymobileapi.com/v1/Balance", ["Bearer u"])] :=
  ⟨(run_authorization
      (scripted [⟨200, [], "\x7b\"token\":\"t\",\"expiresInMinutes\":1\x7d"⟩,
        ⟨200, [], "\x7b\"balance\": 4200\x7d"⟩,
        ⟨200, [], "\x7b\"token\":\"u\",\"expiresInMinutes\":1\x7d"⟩,
        ⟨200, [], "\x7b\"balance\": 4100\x7d"⟩])
      "id" "secret" false 1000 demoClient [authenticationRequest "id" "secret"] (by decide)
      [Op.GetBalance, Op.Authenticate 2000, Op.GetBalance]).2.1,
   by decide⟩

/-- C8 as stated fails: a client built by `NewClient` holds the token `Bearer t`; a second
`Authenticate` then sends, to the Authentication URL, a request whose `Authorization`
value is `Bearer t` and not the BASIC credential value. -/
theorem Authenticate_again_sends_bearer :
    NewClient (scripted [⟨200, [], "\x7b\"token\":\"t\",\"expiresInMinutes\":1\x7d"⟩,
        ⟨200, [], "\x7b\"token\":\"u\",\"expiresInMinutes\":1\x7d"⟩])
      "id" "secret" false 1000 = (some demoClient, none, [authenticationRequest "id" "secret"]) ∧
    (run (scripted [⟨200, [], "\x7b\"token\":\"t\",\"expiresInMinutes\":1\x7d"⟩,
        ⟨200, [], "\x7b\"token\":\"u\",\"expiresInMinutes\":1\x7d"⟩])
      (demoClient, [authenticationRequest "id" "secret"]) [Op.Authenticate 2000]).2 =
      [authenticationRequest "id" "secret",
       { Method := "GET", URL := "https://rest.mymobileapi.com/v1/Authentication",
         Header := [("Authorization", "Bearer t"), ("Content-Type", "application/json")],
         Body := none }] ∧
    Header.Values [("Authorization", "Bearer t"), ("Content-Type", "application/json")]
      "Authorization" = ["Bearer t"] ∧
    ["Bearer t"] ≠ ["BASIC " ++ EncodeToString ("id" ++ ":" ++ "secret")] := by
  decide

/-- The digit character of `d < 10` is a digit with value `d`. -/
theorem digitChar_spec (d : Nat) (h : d < 10) :
    isDigit (digitChar d) = true ∧ digitVal (digitChar d) = d := by
  interval_cases d <;> exact ⟨by decide, by decide⟩

/-- A numeral has at least one digit. -/
theorem decDigits_ne_nil (fuel n : Nat) (h : n < fuel) : decDigits fuel n ≠ [] := by
  cases fuel with
  | zero => omega
  | succ fuel =>
    unfold decDigits
    split <;> simp

/-- A numeral consists of digits. -/
theorem decDigits_all_digits (fuel n : Nat) : ∀ c ∈ decDigits fuel n, isDigit c = true := by
  induction fuel generalizing n with
  | zero => simp [decDigits]
  | succ fuel ih =>
    unfold decDigits
    split
    · rename_i h
      intro c hc
      rw [List.mem_singleton.mp hc]
      exact (digitChar_spec n h).1
    · intro c hc
      rcases List.mem_append.mp hc with hc | hc
      · exact ih _ c hc
      · rw [List.mem_singleton.mp hc]
        exact (digitChar_spec _ (Nat.mod_lt _ (by norm_num))).1

/-- Reading a numeral of `n ≤ 2^63` with `leadingInt` arrives at `n` without overflow. -/
theorem leadingInt_decDigits (fuel n : Nat) (rest : List Char) (hf : n < fuel)
    (hn : n ≤ 2 ^ 63) : leadingInt 0 (decDigits fuel n ++ rest) = leadingInt n rest := by
  induction fuel generalizing n rest with
  | zero => omega
  | succ fuel ih =>
    unfold decDigits
    split
    · rename_i h
      have hd := digitChar_spec n h
      simp only [List.singleton_append, leadingInt, hd.1, hd.2, if_true]
      rw [if_neg (by norm_num), if_neg (by omega)]
      simp
    · rename_i h
      rw [List.append_assoc, ih (n / 10) _ (by omega) (by omega)]
      have hd := digitChar_spec (n % 10) (Nat.mod_lt _ (by norm_num))
      simp only [List.singleton_append, leadingInt, hd.1, hd.2, if_true]
      have h1 : n / 10 * 10 + n % 10 = n := by omega
      rw [if_neg (by norm_num at hn ⊢; omega), h1, if_neg (by omega)]
      rfl

/-- The function `leadingInt` stops at a character that is not a digit. -/
theorem leadingInt_stop (x : Nat) (c : Char) (rest : List Char) (h : isDigit c = false) :
    leadingInt x (c :: rest) = some (x, c :: rest) := by
  simp [leadingInt, h]

/-- One segment of digits followed by the unit `m`: the minutes in nanoseconds, as long as
they fit (`153722867` is `2^63 / 60e9`, rounded down). -/
theorem parseSegments_minutes (orig : String) (fuel n : Nat) (ds : List Char)
    (hne : ds ≠ []) (hds : ∀ c ∈ ds, isDigit c = true)
    (hlead : leadingInt 0 (ds ++ ['m']) = some (n, ['m']))
    (hn : n ≤ 153722867) :
    parseSegments orig (fuel + 2) 0 (ds ++ ['m']) = .ok (n * 60000000000) := by
  cases ds with
  | nil => exact absurd rfl hne
  | cons c cs =>
    have hc : isDigit c = true := hds c (by simp)
    have hlead1 : leadingInt 0 (c :: (cs ++ ['m'])) = some (n, ['m']) := hlead
    have hsp : spanUnit ['m'] = (['m'], []) := by decide
    have hu : unitMap (String.mk ['m']) = some 60000000000 := by decide
    show parseSegments orig (fuel + 2) 0 (c :: (cs ++ ['m'])) = _
    unfold parseSegments
    simp only [hc, Bool.or_true, Bool.not_true, Bool.false_eq_true, if_false, hlead1]
    have hmod : n * 60000000000 % 18446744073709551616 = n * 60000000000 :=
      Nat.mod_eq_of_lt (by omega)
    simp [hsp, hu, parseSegments, hmod]
    rw [if_neg (by omega), if_neg (by omega)]


/-- A digit is neither a sign nor the point. -/
theorem isDigit_ne_sign (c : Char) (h : isDigit c = true) : c ≠ '-' ∧ c ≠ '+' ∧ c ≠ '.' := by
  refine ⟨?_, ?_, ?_⟩ <;> (intro e; subst e; exact absurd h (by decide))

/-- The function `ParseDuration` on digits followed by `m`, without and with a minus sign. -/
theorem ParseDuration_digits (ds : List Char) (n : Nat) (hne : ds ≠ [])
    (hds : ∀ c ∈ ds, isDigit c = true)
    (hlead : leadingInt 0 (ds ++ ['m']) = some (n, ['m'])) (hn : n ≤ 153722867) :
    ParseDuration (String.mk (ds ++ ['m'])) = .ok ((n : Int) * 60000000000) ∧
    ParseDuration (String.mk ('-' :: (ds ++ ['m']))) = .ok (-((n : Int) * 60000000000)) := by
  cases ds with
  | nil => exact absurd rfl hne
  | cons c cs =>
    have hc : isDigit c = true := hds c (by simp)
    obtain ⟨h1, h2, -⟩ := isDigit_ne_sign c hc
    have hseg := fun orig => parseSegments_minutes orig (cs.length + 1) n (c :: cs) hne hds hlead hn
    have hlen : (c :: cs ++ ['m']).length + 1 = cs.length + 1 + 2 := by simp
    constructor
    · unfold ParseDuration
      simp only [List.cons_append, List.head?_cons, Option.some.injEq, h1, h2, or_self, if_false,
        decide_False]
      rw [if_neg (by simp), if_neg (by simp)]
      have := hseg (String.mk (c :: (cs ++ ['m'])))
      rw [List.cons_append] at this hlen
      rw [hlen, this]
      simp only [Bool.false_eq_true, if_false]
      rw [if_neg (by omega)]
      simp
    · unfold ParseDuration
      simp only [List.head?_cons, true_or, if_true, decide_True, List.tail_cons]
      rw [if_neg (by simp), if_neg (by simp)]
      have := hseg (String.mk ('-' :: (c :: cs ++ ['m'])))
      rw [List.cons_append] at this hlen
      rw [List.cons_append, hlen, this]
      simp

/-- The duration that `Authenticate` computes: for at most `153722867` minutes in either
direction, `ParseDuration` returns the minutes as nanoseconds. -/
theorem ParseDuration_minutes (m : Int) (h1 : -153722867 ≤ m) (h2 : m ≤ 153722867) :
    ParseDuration (formatInt m ++ "m") = .ok (m * 60000000000) := by
  cases m with
  | ofNat n =>
    have hn : n ≤ 153722867 := by
      rw [Int.ofNat_eq_coe] at h2
      omega
    have hlead : leadingInt 0 (formatNat n ++ ['m']) = some (n, ['m']) := by
      rw [formatNat, leadingInt_decDigits _ _ _ (Nat.lt_succ_self n) (by norm_num; omega)]
      exact leadingInt_stop _ _ _ (by decide)
    exact (ParseDuration_digits (formatNat n) n (decDigits_ne_nil _ _ (Nat.lt_succ_self n))
      (decDigits_all_digits _ _) hlead hn).1
  | negSucc k =>
    have hn : k + 1 ≤ 153722867 := by
      rw [Int.negSucc_eq] at h1
      omega
    have hlead : leadingInt 0 (formatNat (k + 1) ++ ['m']) = some (k + 1, ['m']) := by
      rw [formatNat, leadingInt_decDigits _ _ _ (Nat.lt_succ_self _) (by norm_num; omega)]
      exact leadingInt_stop _ _ _ (by decide)
    have := (ParseDuration_digits (formatNat (k + 1)) (k + 1)
      (decDigits_ne_nil _ _ (Nat.lt_succ_self _)) (decDigits_all_digits _ _) hlead hn).2
    rw [Int.negSucc_eq]
    rw [show formatInt (-(↑k + 1)) ++ "m" = String.mk ('-' :: (formatNat (k + 1) ++ ['m'])) from by
      rw [← Int.negSucc_eq]; rfl]
    rw [this]
    push_cast
    ring_nf

/-- The function `spanDigits` takes exactly the digits in front of another character. -/
theorem spanDigits_append (ds : List Char) (x : Char) (rest : List Char)
    (hds : ∀ c ∈ ds, isDigit c = true) (hx : isDigit x = false) :
    spanDigits (ds ++ x :: rest) = (ds, x :: rest) := by
  induction ds with
  | nil => simp [spanDigits, hx]
  | cons c cs ih =>
    have hc : isDigit c = true := hds c (by simp)
    have := ih (fun d hd => hds d (by simp [hd]))
    simp [spanDigits, hc, this]

/-- The numeral of a positive number does not start with the digit 0. -/
theorem decDigits_head (fuel n : Nat) (hf : n < fuel) (hn : 1 ≤ n) :
    ∃ c cs, decDigits fuel n = c :: cs ∧ c ≠ '0' := by
  induction fuel generalizing n with
  | zero => omega
  | succ fuel ih =>
    unfold decDigits
    split
    · rename_i h
      refine ⟨digitChar n, [], rfl, ?_⟩
      interval_cases n <;> decide
    · obtain ⟨c, cs, h1, h2⟩ := ih (n / 10) (by omega) (by omega)
      exact ⟨c, cs ++ [digitChar (n % 10)], by rw [h1]; rfl, h2⟩

/-- A number literal ends in front of a closing brace. -/
theorem scanFrac_brace (lit rest : List Char) :
    scanFrac lit ('}' :: rest) = some (lit, '}' :: rest) := by
  simp [scanFrac, scanExp]

/-- The scanner reads a whole numeral in front of a closing brace as an integer part. -/
theorem scanInt_decDigits (sign : List Char) (n : Nat) (rest : List Char) :
    scanInt sign (formatNat n ++ '}' :: rest) = some (sign ++ formatNat n, '}' :: rest) := by
  by_cases hn : n = 0
  · subst hn
    have : formatNat 0 = ['0'] := by decide
    rw [this]
    simp [scanInt, scanFrac_brace]
  · obtain ⟨c, cs, h1, h2⟩ := decDigits_head (n + 1) n (Nat.lt_succ_self n) (by omega)
    have hds := decDigits_all_digits (n + 1) n
    rw [formatNat, h1] at *
    have hc : isDigit c = true := hds c (by simp)
    have hcs : ∀ d ∈ cs, isDigit d = true := fun d hd => hds d (by simp [hd])
    simp only [List.cons_append, scanInt, h2, if_false, hc, if_true]
    rw [spanDigits_append cs '}' rest hcs (by decide)]
    simp [scanFrac_brace]

/-- The scanner reads what `formatInt` printed as one number literal. -/
theorem scanNumber_formatInt (b : Int) (rest : List Char) :
    scanNumber ((formatInt b).data ++ '}' :: rest) = some ((formatInt b).data, '}' :: rest) := by
  cases b with
  | ofNat n =>
    show scanNumber (formatNat n ++ '}' :: rest) = some (formatNat n, '}' :: rest)
    have hne := decDigits_ne_nil (n + 1) n (Nat.lt_succ_self n)
    have hds := decDigits_all_digits (n + 1) n
    have key := scanInt_decDigits [] n rest
    rw [formatNat] at *
    cases hd : decDigits (n + 1) n with
    | nil => exact absurd hd hne
    | cons c cs =>
      rw [hd] at key hds
      have hc : isDigit c = true := hds c (by simp)
      have h1 := (isDigit_ne_sign c hc).1
      unfold scanNumber
      split
      · rename_i heq
        simp at heq
        exact absurd heq.1 h1
      · simpa using key
  | negSucc k =>
    show scanNumber ('-' :: (formatNat (k + 1) ++ '}' :: rest)) =
      some ('-' :: formatNat (k + 1), '}' :: rest)
    simp [scanNumber, scanInt_decDigits]


/-- Reading a numeral with `parseDigits` arrives at the number. -/
theorem parseDigits_decDigits (fuel n : Nat) (rest : List Char) (a : Option Nat)
    (ha : a.getD 0 = 0) (hf : n < fuel) :
    parseDigits a (decDigits fuel n ++ rest) = parseDigits (some n) rest := by
  induction fuel generalizing n rest with
  | zero => omega
  | succ fuel ih =>
    unfold decDigits
    split
    · rename_i h
      have hd := digitChar_spec n h
      simp [parseDigits, hd.1, hd.2, ha]
    · rw [List.append_assoc, ih (n / 10) _ (by omega)]
      have hd := digitChar_spec (n % 10) (Nat.mod_lt _ (by norm_num))
      have h1 : n / 10 * 10 + n % 10 = n := by omega
      simp [parseDigits, hd.1, hd.2, h1]

/-- The function `ParseInt` reads what `formatInt` printed, for every 64-bit integer. -/
theorem parseInt64_formatInt (b : Int) (h1 : -2 ^ 63 ≤ b) (h2 : b < 2 ^ 63) :
    parseInt64 (formatInt b).data = some b := by
  cases b with
  | ofNat n =>
    have hn : n < 2 ^ 63 := by
      rw [Int.ofNat_eq_coe] at h2
      exact_mod_cast h2
    show parseInt64 (formatNat n) = some (Int.ofNat n)
    have hne := decDigits_ne_nil (n + 1) n (Nat.lt_succ_self n)
    have hds := decDigits_all_digits (n + 1) n
    have key := parseDigits_decDigits (n + 1) n [] none rfl (Nat.lt_succ_self n)
    rw [List.append_nil] at key
    rw [formatNat] at *
    cases hd : decDigits (n + 1) n with
    | nil => exact absurd hd hne
    | cons c cs =>
      rw [hd] at key hds
      have hc : isDigit c = true := hds c (by simp)
      have hc1 := (isDigit_ne_sign c hc).1
      unfold parseInt64
      split
      · rename_i heq
        simp at heq
        exact absurd heq.1 hc1
      · rw [key]
        simp [parseDigits]
        norm_num at hn
        exact hn
  | negSucc k =>
    have hn : k + 1 ≤ 2 ^ 63 := by
      rw [Int.negSucc_eq] at h1
      have : -(2 : Int) ^ 63 ≤ -((k : Int) + 1) := h1
      have h3 : ((k : Int) + 1) ≤ 2 ^ 63 := by linarith
      exact_mod_cast h3
    show parseInt64 ('-' :: formatNat (k + 1)) = some (Int.negSucc k)
    have key := parseDigits_decDigits (k + 1 + 1) (k + 1) [] none rfl (Nat.lt_succ_self _)
    rw [List.append_nil] at key
    simp only [parseInt64, formatNat, key, parseDigits, hn, if_true]
    rw [Int.negSucc_eq]
    push_cast
    rfl

/-- The key `balance` as a string literal. -/
theorem scanString_balance (k : Nat) (tail : List Char) :
    scanString (k + 8) ('b' :: 'a' :: 'l' :: 'a' :: 'n' :: 'c' :: 'e' :: '"' :: tail) [] =
      some ("balance", tail) := by
  simp [scanString]


/-- The key `balance` as a string literal, with any fuel from 8 on. -/
theorem scanString_balance_fuel (fuel : Nat) (tail : List Char) (h : 8 ≤ fuel) :
    scanString fuel ('b' :: 'a' :: 'l' :: 'a' :: 'n' :: 'c' :: 'e' :: '"' :: tail) [] =
      some ("balance", tail) := by
  obtain ⟨k, rfl⟩ := Nat.exists_eq_add_of_le' h
  exact scanString_balance k tail

/-- The first character of a number is no space and starts no other kind of value. -/
theorem number_start (c : Char) (h : isDigit c = true ∨ c = '-') :
    isSpace c = false ∧ c ≠ '{' ∧ c ≠ '[' ∧ c ≠ '"' ∧ c ≠ 't' ∧ c ≠ 'f' ∧ c ≠ 'n' := by
  rcases h with h | h
  · refine ⟨?_, ?_, ?_, ?_, ?_, ?_, ?_⟩
    · by_contra hs
      have hs1 : isSpace c = true := by simpa using hs
      simp only [isSpace, Bool.or_eq_true, decide_eq_true_eq] at hs1
      rcases hs1 with ((hs1 | hs1) | hs1) | hs1 <;> (subst hs1; exact absurd h (by decide))
    all_goals (intro e; subst e; exact absurd h (by decide))
  · subst h
    decide

/-- The parser on an object with the one member `balance`, a number. -/
theorem parseValue_balance (f : Nat) (l0 : Char) (ls : List Char)
    (hl0 : isDigit l0 = true ∨ l0 = '-')
    (hnum : scanNumber (l0 :: (ls ++ ['}'])) = some (l0 :: ls, ['}'])) :
    parseValue (f + 3) 0
        ('{' :: '"' :: 'b' :: 'a' :: 'l' :: 'a' :: 'n' :: 'c' :: 'e' :: '"' :: ':' :: ' ' ::
          l0 :: (ls ++ ['}'])) =
      some (.obj [("balance", .number (l0 :: ls))], []) := by
  obtain ⟨h0, h1, h2, h3, h4, h5, h6⟩ := number_start l0 hl0
  have hsp : skipSpace (' ' :: l0 :: (ls ++ ['}'])) = l0 :: (ls ++ ['}']) := by
    have : isSpace ' ' = true := by decide
    simp [skipSpace, this, h0]
  have hv : parseValue (f + 1) 1 (' ' :: l0 :: (ls ++ ['}'])) =
      some (.number (l0 :: ls), ['}']) := by
    unfold parseValue
    simp only [hsp, h1, h2, h3, h4, h5, h6, if_false, hnum, Option.map_some']
  have hm : parseMembers (f + 2) 1
      ('"' :: 'b' :: 'a' :: 'l' :: 'a' :: 'n' :: 'c' :: 'e' :: '"' :: ':' :: ' ' ::
          l0 :: (ls ++ ['}'])) = some ([("balance", .number (l0 :: ls))], []) := by
    unfold parseMembers
    have hs1 : skipSpace ('"' :: 'b' :: 'a' :: 'l' :: 'a' :: 'n' :: 'c' :: 'e' :: '"' :: ':' ::
        ' ' :: l0 :: (ls ++ ['}'])) =
        '"' :: 'b' :: 'a' :: 'l' :: 'a' :: 'n' :: 'c' :: 'e' :: '"' :: ':' ::
        ' ' :: l0 :: (ls ++ ['}']) := by
      have : isSpace '"' = false := by decide
      simp [skipSpace, this]
    have hs2 : skipSpace (':' :: ' ' :: l0 :: (ls ++ ['}'])) =
        ':' :: ' ' :: l0 :: (ls ++ ['}']) := by
      have : isSpace ':' = false := by decide
      simp [skipSpace, this]
    have hs3 : skipSpace ['}'] = ['}'] := by decide
    simp only [hs1]
    rw [scanString_balance_fuel _ _ (by simp)]
    simp only [hs2, hv, hs3]
  unfold parseValue
  have hs0 : skipSpace ('{' :: '"' :: 'b' :: 'a' :: 'l' :: 'a' :: 'n' :: 'c' :: 'e' :: '"' ::
      ':' :: ' ' :: l0 :: (ls ++ ['}'])) =
      '{' :: '"' :: 'b' :: 'a' :: 'l' :: 'a' :: 'n' :: 'c' :: 'e' :: '"' ::
      ':' :: ' ' :: l0 :: (ls ++ ['}']) := by
    have : isSpace '{' = false := by decide
    simp [skipSpace, this]
  have hs1 : skipSpace ('"' :: 'b' :: 'a' :: 'l' :: 'a' :: 'n' :: 'c' :: 'e' :: '"' :: ':' ::
      ' ' :: l0 :: (ls ++ ['}'])) =
      '"' :: 'b' :: 'a' :: 'l' :: 'a' :: 'n' :: 'c' :: 'e' :: '"' :: ':' ::
      ' ' :: l0 :: (ls ++ ['}']) := by
    have : isSpace '"' = false := by decide
    simp [skipSpace, this]
  rw [hs0]
  dsimp only
  rw [if_pos rfl, if_pos (by decide), hs1]
  split
  · rename_i heq
    simp at heq
  · simp only [hm, Option.map_some']


/-- A printed integer starts with a digit or a minus sign. -/
theorem formatInt_start (b : Int) :
    ∃ l0 ls, (formatInt b).data = l0 :: ls ∧ (isDigit l0 = true ∨ l0 = '-') := by
  cases b with
  | ofNat n =>
    have hne := decDigits_ne_nil (n + 1) n (Nat.lt_succ_self n)
    have hds := decDigits_all_digits (n + 1) n
    show ∃ l0 ls, formatNat n = l0 :: ls ∧ _
    rw [formatNat]
    cases hd : decDigits (n + 1) n with
    | nil => exact absurd hd hne
    | cons c cs =>
      rw [hd] at hds
      exact ⟨c, cs, rfl, Or.inl (hds c (by simp))⟩
  | negSucc k => exact ⟨'-', formatNat (k + 1), rfl, Or.inr rfl⟩

/-- The body with the one member `balance` is read as that object. -/
theorem readValue_balance (b : Int) :
    readValue ("\x7b\"balance\": " ++ formatInt b ++ "\x7d") =
      some (.obj [("balance", .number (formatInt b).data)]) := by
  obtain ⟨l0, ls, hl, hl0⟩ := formatInt_start b
  have hnum := scanNumber_formatInt b []
  rw [hl] at hnum
  have hdata : ("\x7b\"balance\": " ++ formatInt b ++ "\x7d").data =
      '{' :: '"' :: 'b' :: 'a' :: 'l' :: 'a' :: 'n' :: 'c' :: 'e' :: '"' :: ':' :: ' ' ::
        l0 :: (ls ++ ['}']) := by
    have : ("\x7b\"balance\": " ++ formatInt b ++ "\x7d").data =
      '{' :: '"' :: 'b' :: 'a' :: 'l' :: 'a' :: 'n' :: 'c' :: 'e' :: '"' :: ':' :: ' ' ::
        ((formatInt b).data ++ ['}']) := rfl
    rw [this, hl]
    rfl
  have hfuel : ∃ f, 2 * ("\x7b\"balance\": " ++ formatInt b ++ "\x7d").length + 2 = f + 3 :=
    ⟨2 * ("\x7b\"balance\": " ++ formatInt b ++ "\x7d").length - 1, by
      have : ("\x7b\"balance\": " ++ formatInt b ++ "\x7d").length =
          ("\x7b\"balance\": " ++ formatInt b ++ "\x7d").data.length := rfl
      rw [this, hdata]
      simp
      omega⟩
  obtain ⟨f, hf⟩ := hfuel
  unfold readValue
  rw [hf, hdata, parseValue_balance f l0 ls hl0 hnum, hl]
  rfl

/-- Decoding the body with the one member `balance` stores the number, for every 64-bit
integer. -/
theorem Decode_balance (b : Int) (h1 : -2 ^ 63 ≤ b) (h2 : b < 2 ^ 63) (r : BalanceResponse) :
    Decode (storeStruct BalanceResponse.setField)
      ("\x7b\"balance\": " ++ formatInt b ++ "\x7d") r = { Balance := b } := by
  unfold Decode
  rw [readValue_balance]
  have hm : fieldMatch "balance" "balance" = true := by decide
  simp [storeStruct, BalanceResponse.setField, hm, storeInt, parseInt64_formatInt b h1 h2]

/-- C7, as far as the source goes. When the server answers the Authentication request with
a status in [200,299] and a body that decodes to the token `t` and `m` minutes, with `m`
between -153722867 and 153722867 (the minutes that fit a `time.Duration`),
`Authenticate` called at `now` returns nil and leaves the client with the token
`"Bearer " ++ t` and the expiry `now + m * 60 * 10^9` nanoseconds, all other fields as
they were. -/
theorem Authenticate_stores_token {V : Type} (w : World V) (c : Client) (log : List Request)
    (now : Time) (req : Request) (resp : Response) (t schema : String) (m : Int)
    (hreq : Client.buildRequest w c marshalNil "GET" "Authentication" none [] = .ok req)
    (hsend : w.send log req = .ok resp)
    (h1 : 200 ≤ resp.StatusCode) (h2 : resp.StatusCode ≤ 299)
    (hbody : Decode (storeStruct AuthResponse.setField) resp.Body {} =
      { Token := t, Schema := schema, ExpiresInMinutes := m })
    (hlo : -153722867 ≤ m) (hhi : m ≤ 153722867) :
    Client.Authenticate w c log now =
      { err := none,
        client := { c with AuthTokenExpiry := now + m * 60 * 10 ^ 9, authToken := "Bearer " ++ t },
        log := log ++ [req] } := by
  have hdo := do_of_status_ok w c log marshalNil "GET" "Authentication" none [] req resp hreq
    hsend h1 h2
  rw [Authenticate_of_do_ok w c log now resp _ hdo, hbody]
  simp only [ParseDuration_minutes m hlo hhi]
  have : m * 60000000000 = m * 60 * 10 ^ 9 := by ring
  rw [this]

/-- C7 at a concrete exchange: the first authentication of a client, 30 minutes. -/
theorem Authenticate_stores_token_witness :
    Client.Authenticate
      (scripted [⟨200, [], "\x7b\"token\":\"abc\",\"schema\":\"JWT\",\"expiresInMinutes\":30\x7d"⟩])
      { authorization := "BASIC aWQ6c2VjcmV0", authToken := "", AuthTokenExpiry := 0,
        debug := false, endpoint := "https://rest.mymobileapi.com/v1/" } [] 1000 =
      { err := none,
        client := { authorization := "BASIC aWQ6c2VjcmV0", authToken := "Bearer " ++ "abc",
                    AuthTokenExpiry := 1000 + 30 * 60 * 10 ^ 9, debug := false,
                    endpoint := "https://rest.mymobileapi.com/v1/" },
        log := [] ++ [authenticationRequest "id" "secret"] } :=
  Authenticate_stores_token
    (scripted [⟨200, [], "\x7b\"token\":\"abc\",\"schema\":\"JWT\",\"expiresInMinutes\":30\x7d"⟩])
    { authorization := "BASIC aWQ6c2VjcmV0", authToken := "", AuthTokenExpiry := 0,
      debug := false, endpoint := "https://rest.mymobileapi.com/v1/" } [] 1000
    (authenticationRequest "id" "secret")
    ⟨200, [], "\x7b\"token\":\"abc\",\"schema\":\"JWT\",\"expiresInMinutes\":30\x7d"⟩
    "abc" "JWT" 30 rfl rfl (by decide) (by decide) (by decide) (by decide) (by decide)

/-- C7 as stated fails: the server answers 200 with the token `abc` and 153722868 minutes, an
integer that the response can carry; `time.ParseDuration` refuses "153722868m" (the
duration does not fit 63 bits of nanoseconds), `Authenticate` returns that error, and
the client keeps its empty token and its expiry. -/
theorem Authenticate_rejects_long_expiry :
    Decode (storeStruct AuthResponse.setField)
      "\x7b\"token\":\"abc\",\"expiresInMinutes\":153722868\x7d" {} =
      { Token := "abc", Schema := "", ExpiresInMinutes := 153722868 } ∧
    Client.Authenticate
      (scripted [⟨200, [], "\x7b\"token\":\"abc\",\"expiresInMinutes\":153722868\x7d"⟩])
      { authorization := "BASIC aWQ6c2VjcmV0", authToken := "", AuthTokenExpiry := 0,
        debug := false, endpoint := "https://rest.mymobileapi.com/v1/" } [] 1000 =
      { err := some (.parseDuration "153722868m"),
        client := { authorization := "BASIC aWQ6c2VjcmV0", authToken := "", AuthTokenExpiry := 0,
                    debug := false, endpoint := "https://rest.mymobileapi.com/v1/" },
        log := [authenticationRequest "id" "secret"] } := by
  decide

/-- C9. `GetBalance` returns the balance and the nil error when the server answers with a
status in [200,299] and a body that decodes to the balance `b`; in particular for the
body made of the one member `balance` with the numeral of `b`, for every 64-bit `b`.
It returns 0 and the error whenever `Client.get` reports one; in particular for every
status outside [200,299], whatever the body holds. -/
theorem GetBalance_result {V : Type} (w : World V) (c : Client) (log : List Request) :
    (∀ req resp b, Client.buildRequest w c marshalNil "GET" "Balance" none [] = .ok req →
      w.send log req = .ok resp → 200 ≤ resp.StatusCode → resp.StatusCode ≤ 299 →
      Decode (storeStruct BalanceResponse.setField) resp.Body {} = { Balance := b } →
      (Client.GetBalance w c log).1 = b ∧ (Client.GetBalance w c log).2.1 = none) ∧
    (∀ req resp b, Client.buildRequest w c marshalNil "GET" "Balance" none [] = .ok req →
      w.send log req = .ok resp → 200 ≤ resp.StatusCode → resp.StatusCode ≤ 299 →
      -2 ^ 63 ≤ b → b < 2 ^ 63 →
      resp.Body = "\x7b\"balance\": " ++ formatInt b ++ "\x7d" →
      (Client.GetBalance w c log).1 = b ∧ (Client.GetBalance w c log).2.1 = none) ∧
    (∀ e, (Client.get w c log marshalNil "Balance" none
        (Decode (storeStruct BalanceResponse.setField)) {}).err = some e →
      (Client.GetBalance w c log).1 = 0 ∧ (Client.GetBalance w c log).2.1 = some e) ∧
    (∀ req resp, Client.buildRequest w c marshalNil "GET" "Balance" none [] = .ok req →
      w.send log req = .ok resp → resp.StatusCode < 200 ∨ resp.StatusCode > 299 →
      (Client.GetBalance w c log).1 = 0 ∧
      ∃ text, (Client.GetBalance w c log).2.1 = some (.errorf text)) := by
  have hok : ∀ req resp b, Client.buildRequest w c marshalNil "GET" "Balance" none [] = .ok req →
      w.send log req = .ok resp → 200 ≤ resp.StatusCode → resp.StatusCode ≤ 299 →
      Decode (storeStruct BalanceResponse.setField) resp.Body {} = { Balance := b } →
      (Client.GetBalance w c log).1 = b ∧ (Client.GetBalance w c log).2.1 = none := by
    intro req resp b hreq hsend h1 h2 hb
    have hdo := do_of_status_ok w c log marshalNil "GET" "Balance" none [] req resp hreq hsend
      h1 h2
    unfold Client.GetBalance Client.get
    simp only [ask_of_do_ok _ _ _ _ _ _ _ _ _ _ _ hdo, hb]
    exact ⟨trivial, trivial⟩
  refine ⟨hok, ?_, ?_, ?_⟩
  · intro req resp b hreq hsend h1 h2 hlo hhi hbody
    exact hok req resp b hreq hsend h1 h2 (by rw [hbody]; exact Decode_balance b hlo hhi _)
  · intro e he
    unfold Client.GetBalance
    simp only [he]
    exact ⟨trivial, trivial⟩
  · intro req resp hreq hsend hstatus
    obtain ⟨text, ht⟩ := do_of_status_bad w c log marshalNil "GET" "Balance" none [] req resp
      hreq hsend hstatus
    unfold Client.GetBalance Client.get
    simp only [ask_of_do_fail _ _ _ _ _ _ _ _ _ _ _ _ ht]
    exact ⟨trivial, ⟨text, rfl⟩⟩

/-- C9 at concrete exchanges: the body with balance 4200 gives 4200 and nil; a 403 answer
whose body also holds a balance gives 0 and an error. -/
theorem GetBalance_result_witness :
    ((Client.GetBalance (scripted [⟨200, [], "\x7b\"balance\": 4200\x7d"⟩]) demoClient []).1 = 4200 ∧
      (Client.GetBalance (scripted [⟨200, [], "\x7b\"balance\": 4200\x7d"⟩]) demoClient []).2.1 =
        none) ∧
    ((Client.GetBalance (scripted [⟨403, [], "\x7b\"balance\": 7\x7d"⟩]) demoClient []).1 = 0 ∧
      ∃ text, (Client.GetBalance (scripted [⟨403, [], "\x7b\"balance\": 7\x7d"⟩])
        demoClient []).2.1 = some (.errorf text)) :=
  ⟨(GetBalance_result (scripted [⟨200, [], "\x7b\"balance\": 4200\x7d"⟩]) demoClient []).2.1
      ⟨"GET", "https://rest.mymobileapi.com/v1/Balance",
        [("Authorization", "Bearer t"), ("Content-Type", "application/json")], none⟩
      ⟨200, [], "\x7b\"balance\": 4200\x7d"⟩ 4200 rfl rfl (by decide) (by decide)
      (by decide) (by decide) (by decide),
   (GetBalance_result (scripted [⟨403, [], "\x7b\"balance\": 7\x7d"⟩]) demoClient []).2.2.2
      ⟨"GET", "https://rest.mymobileapi.com/v1/Balance",
        [("Authorization", "Bearer t"), ("Content-Type", "application/json")], none⟩
      ⟨403, [], "\x7b\"balance\": 7\x7d"⟩ rfl rfl (by decide)⟩

end MyMobileApi
